import Mathlib

/-!
Verification development for the `sslscan` Go package (SSLLabs public API
client, API v3).  The package issues HTTP GET requests against three fixed
endpoints, encodes a handful of request parameters into query strings, and
decodes JSON responses into a tree of plain record types via `encoding/json`
struct tags.

The embedding below models:

* JSON values (`Json`) and the wire schema of every response struct of the
  package as a list of `(tag, field type)` pairs transcribed from the Go
  struct tags (`infoSpec`, `analyzeInfoSpec`, `endpointInfoSpec`, ...).
* the behaviour of `encoding/json` unmarshalling into a tagged struct,
  fused with re-marshalling: `decodeObj spec body` returns the canonical
  JSON object obtained by decoding `body` into the struct described by
  `spec` and re-encoding it.  `encoding/json` itself is an external
  collaborator of the repository (its sources are not part of the repo), so
  this part is modelled from its documented behaviour: unknown keys are
  ignored, absent keys leave the zero value, `null` leaves the zero value,
  a type mismatch is an error.  Field lookup is by exact tag; Go would
  additionally fall back to a case-insensitive match, which is why the
  well-shapedness predicate below requires unknown keys not to collide
  case-insensitively with any documented tag (on such payloads the exact
  and the Go resolution coincide).
* the query-string builders (`paramsToQuery` and the query construction in
  `Analyze`, `AnalyzeProgress.Info`, `AnalyzeProgress.GetEndpointInfo`).
* the request layer `doRequest` over an abstract transport
  (`Transport := String → Except String (Int × Json)`, standing for
  `fasthttp.Client.Do`), recording the list of request URIs issued.
  All requests of the package are GET requests (`fasthttp.AcquireRequest`
  yields a GET request and no method is ever set), so the model does not
  carry a method field.
-/

/-- JSON values.  Numbers are modelled as integers: every numeric field of
the documented schema is an integer field. -/
inductive Json where
  | null
  | bool (b : Bool)
  | int (n : Int)
  | str (s : String)
  | arr (xs : List Json)
  | obj (kvs : List (String × Json))
deriving Repr

/-- Whether a JSON value is a string. -/
def Json.isStr : Json → Bool
  | .str _ => true
  | _ => false

/-- Whether a JSON value is `null`. -/
def Json.isNull : Json → Bool
  | .null => true
  | _ => false

/-- First-match association lookup (Go field/map access by key). -/
def lookupKV (k : String) : List (String × α) → Option α
  | [] => none
  | kv :: rest => if k = kv.1 then some kv.2 else lookupKV k rest

/-- A decoded-and-re-encoded view of one Go struct type: `dec` is
unmarshal-then-marshal, `shaped` recognises documented payloads, `strip`
removes undocumented keys.  Built by `mkObjModel` from a tag list. -/
structure ObjModel where
  dec : Json → Option Json
  shaped : Json → Bool
  strip : Json → Json

/-- Field types occurring in the package's structs: scalars, `[]string`,
`map[string]string`, `*int`, and struct-valued fields `*T`, `[]T`, `[]*T`
(carrying the model of `T`). -/
inductive FieldTy where
  | str
  | int
  | bool
  | arrStr
  | mapStr
  | nullInt
  | nullObj (m : ObjModel)
  | arrObj (m : ObjModel)
  | arrNullObj (m : ObjModel)

/-- Re-encoded Go zero value of a field: `""`, `0`, `false`; `null` for
slices, maps and pointers. -/
def zeroF : FieldTy → Json
  | .str => .str ""
  | .int => .int 0
  | .bool => .bool false
  | _ => .null

/-- Insert into a key-ordered association list, replacing an equal key
(the building block of Go's sorted map re-encoding). -/
def mapInsert (k : String) (v : Json) : List (String × Json) → List (String × Json)
  | [] => [(k, v)]
  | kv :: rest =>
    if k < kv.1 then (k, v) :: kv :: rest
    else if k = kv.1 then (k, v) :: rest
    else kv :: mapInsert k v rest

/-- Decode a JSON object into a Go map and re-encode it: later duplicate
keys win, and `encoding/json` emits map keys in sorted order. -/
def sortDedup (kvs : List (String × Json)) : List (String × Json) :=
  kvs.foldl (fun acc kv => mapInsert kv.1 kv.2 acc) []

/-- Decode every element of a JSON array, failing if any element fails. -/
def mapOptM (g : Json → Option Json) : List Json → Option (List Json)
  | [] => some []
  | x :: xs =>
    match g x, mapOptM g xs with
    | some y, some ys => some (y :: ys)
    | _, _ => none

/-- Decode one field value and re-encode it.  `null` always succeeds and
leaves the zero value; scalars must match their type; struct-valued fields
delegate to the struct's model; a mismatch is a decode error. -/
def convF : FieldTy → Json → Option Json
  | ft, .null => some (zeroF ft)
  | .str, .str s => some (.str s)
  | .int, .int n => some (.int n)
  | .bool, .bool b => some (.bool b)
  | .arrStr, .arr xs => if xs.all (fun x => x.isStr) then some (.arr xs) else none
  | .mapStr, .obj kvs =>
    if kvs.all (fun kv => kv.2.isStr) then some (.obj (sortDedup kvs)) else none
  | .nullInt, .int n => some (.int n)
  | .nullObj m, v => m.dec v
  | .arrObj m, .arr xs => (mapOptM m.dec xs).map Json.arr
  | .arrNullObj m, .arr xs =>
    (mapOptM (fun x => if Json.isNull x then some Json.null else m.dec x) xs).map Json.arr
  | _, _ => none

/-- Decode one struct field from a payload object: an absent key leaves the
re-encoded zero value, a present key is converted by its field type. -/
def decodeField (kvs : List (String × Json)) (tag : String) (ft : FieldTy) : Option Json :=
  match lookupKV tag kvs with
  | none => some (zeroF ft)
  | some v => convF ft v

/-- Decode every field of a tag list from a payload object, producing the
re-encoded struct (fields in declaration order). -/
def decodeFields (spec : List (String × FieldTy)) (kvs : List (String × Json)) :
    Option (List (String × Json)) :=
  match spec with
  | [] => some []
  | f :: rest =>
    match decodeField kvs f.1 f.2, decodeFields rest kvs with
    | some w, some ws => some ((f.1, w) :: ws)
    | _, _ => none

/-- Unmarshal a JSON value into the struct described by `spec` and
re-marshal it.  A `null` body leaves the zero struct; a non-object,
non-null body is a decode error. -/
def decodeObj (spec : List (String × FieldTy)) : Json → Option Json
  | .obj kvs => (decodeFields spec kvs).map Json.obj
  | .null => some (.obj (spec.map (fun f => (f.1, zeroF f.2))))
  | _ => none

/-- Well-shaped field value: the value a documented payload may carry at a
field of the given type such that decoding and re-encoding preserve it
exactly. -/
def shapedF : FieldTy → Json → Bool
  | .str, .str _ => true
  | .int, .int _ => true
  | .bool, .bool _ => true
  | .arrStr, .null => true
  | .arrStr, .arr xs => xs.all (fun x => x.isStr)
  | .mapStr, .null => true
  | .mapStr, .obj kvs =>
    (kvs.all (fun kv => kv.2.isStr)) && decide ((kvs.map Prod.fst).Pairwise (· < ·))
  | .nullInt, .null => true
  | .nullInt, .int _ => true
  | .nullObj _, .null => true
  | .nullObj m, v => m.shaped v
  | .arrObj _, .null => true
  | .arrObj m, .arr xs => xs.all m.shaped
  | .arrNullObj _, .null => true
  | .arrNullObj m, .arr xs => xs.all (fun x => x.isNull || m.shaped x)
  | _, _ => false

/-- Lower-case a string character-wise (used only for the
case-insensitive unknown-key condition). -/
def lowerStr (s : String) : String := String.mk (s.data.map Char.toLower)

/-- Well-shaped payload object for a tag list: the documented keys appear
exactly once each, in declaration order, with well-shaped values; any other
key is unknown, i.e. does not even case-insensitively collide with a
documented tag (`lows` is the list of lower-cased documented tags). -/
def shapedFields (lows : List String) : List (String × FieldTy) → List (String × Json) → Bool
  | spec, [] => spec.isEmpty
  | f :: spec2, (k, v) :: rest =>
    if k = f.1 then shapedF f.2 v && shapedFields lows spec2 rest
    else decide (lowerStr k ∉ lows) && shapedFields lows (f :: spec2) rest
  | [], (k, _) :: rest => decide (lowerStr k ∉ lows) && shapedFields lows [] rest

/-- Well-shaped payload for a struct: an object whose documented part is
complete, in order and well-typed, with only harmless unknown keys. -/
def shapedObj (spec : List (String × FieldTy)) : Json → Bool
  | .obj kvs => shapedFields (spec.map (fun f => lowerStr f.1)) spec kvs
  | _ => false

/-- Strip a well-shaped field value down to what decoding preserves (the
identity on scalars and arrays of scalars; recursive on struct values). -/
def stripF : FieldTy → Json → Json
  | .nullObj m, .obj kvs => m.strip (.obj kvs)
  | .arrObj m, .arr xs => .arr (xs.map m.strip)
  | .arrNullObj m, .arr xs => .arr (xs.map (fun x => if Json.isNull x then Json.null else m.strip x))
  | _, v => v

/-- Remove the unknown keys of a payload object, stripping the values of
the documented keys recursively. -/
def stripFields (spec : List (String × FieldTy)) (kvs : List (String × Json)) :
    List (String × Json) :=
  kvs.filterMap (fun kv => (lookupKV kv.1 spec).map (fun ft => (kv.1, stripF ft kv.2)))

/-- Remove the unknown keys of a payload, recursively. -/
def stripObj (spec : List (String × FieldTy)) : Json → Json
  | .obj kvs => .obj (stripFields spec kvs)
  | v => v

/-- Package a tag list as an `ObjModel`. -/
def mkObjModel (spec : List (String × FieldTy)) : ObjModel :=
  ⟨decodeObj spec, shapedObj spec, stripObj spec⟩

/-- Soundness of a struct model: well-shaped payloads are objects, and
decoding one succeeds and returns exactly its documented part. -/
def ObjModel.ok (m : ObjModel) : Prop :=
  ∀ v, m.shaped v = true → m.dec v = some (m.strip v) ∧ ∃ kvs, v = Json.obj kvs

/-- Requirement on each field type of a sound struct: struct-valued fields
must carry sound models. -/
def childOK : FieldTy → Prop
  | .nullObj m => m.ok
  | .arrObj m => m.ok
  | .arrNullObj m => m.ok
  | _ => True

/-- Looking a key up in an association list finds it only if it is among
the keys. -/
theorem lookupKV_mem {l : List (String × α)} {k : String} {v : α}
    (h : lookupKV k l = some v) : k ∈ l.map Prod.fst := by
  induction l with
  | nil => simp [lookupKV] at h
  | cons kv rest ih =>
    by_cases hk : k = kv.1
    · simp [hk]
    · simp only [lookupKV, if_neg hk] at h
      simp [ih h]

/-- A key absent from the key list is not found. -/
theorem lookupKV_eq_none {l : List (String × α)} {k : String}
    (h : k ∉ l.map Prod.fst) : lookupKV k l = none := by
  induction l with
  | nil => rfl
  | cons kv rest ih =>
    simp only [List.map_cons, List.mem_cons] at h
    push_neg at h
    simp only [lookupKV, if_neg h.1]
    exact ih h.2

/-- With pairwise-distinct keys, every entry is found at its own key. -/
theorem lookupKV_self {l : List (String × α)} (hnd : (l.map Prod.fst).Nodup) :
    ∀ f ∈ l, lookupKV f.1 l = some f.2 := by
  induction l with
  | nil => simp
  | cons kv rest ih =>
    simp only [List.map_cons, List.nodup_cons] at hnd
    intro f hf
    rcases List.mem_cons.mp hf with rfl | hf2
    · simp [lookupKV]
    · have hne : f.1 ≠ kv.1 := by
        intro he
        exact hnd.1 (he ▸ List.mem_map_of_mem Prod.fst hf2)
      simp only [lookupKV, if_neg hne]
      exact ih hnd.2 f hf2

/-- Mapping a partial function that succeeds pointwise over a list. -/
theorem mapOptM_eq_some_map (g : Json → Option Json) (h : Json → Json) :
    ∀ xs : List Json, (∀ x ∈ xs, g x = some (h x)) → mapOptM g xs = some (xs.map h) := by
  intro xs
  induction xs with
  | nil => intro _; rfl
  | cons x rest ih =>
    intro hall
    rw [mapOptM, hall x (by simp), ih (fun y hy => hall y (by simp [hy]))]
    rfl

/-- Inserting a key greater than every key of a sorted association list
appends it at the end. -/
theorem mapInsert_append (k : String) (v : Json) :
    ∀ acc : List (String × Json), (∀ a ∈ acc.map Prod.fst, a < k) →
      mapInsert k v acc = acc ++ [(k, v)] := by
  intro acc
  induction acc with
  | nil => intro _; rfl
  | cons kv rest ih =>
    intro hlt
    have h1 : kv.1 < k := hlt kv.1 (by simp)
    have h2 : ¬k < kv.1 := lt_asymm h1
    have h3 : k ≠ kv.1 := ne_of_gt h1
    simp only [mapInsert, if_neg h2, if_neg h3, List.cons_append, List.cons.injEq, true_and]
    exact ih (fun a ha => hlt a (by simp [ha]))

/-- Folding `mapInsert` over entries whose keys extend a sorted prefix just
appends them. -/
theorem foldl_mapInsert_sorted :
    ∀ (kvs acc : List (String × Json)),
      ((acc.map Prod.fst) ++ (kvs.map Prod.fst)).Pairwise (· < ·) →
      kvs.foldl (fun a kv => mapInsert kv.1 kv.2 a) acc = acc ++ kvs := by
  intro kvs
  induction kvs with
  | nil => intro acc _; simp
  | cons kv rest ih =>
    intro acc hp
    have hlt : ∀ a ∈ acc.map Prod.fst, a < kv.1 := by
      rcases (List.pairwise_append.mp hp) with ⟨_, _, hcross⟩
      intro a ha
      exact hcross a ha kv.1 (by simp)
    rw [List.foldl_cons, mapInsert_append kv.1 kv.2 acc hlt, ih (acc ++ [kv]) (by simpa using hp)]
    simp

/-- Re-encoding a Go map read from an already sorted, duplicate-free object
returns the object unchanged. -/
theorem sortDedup_sorted (kvs : List (String × Json))
    (hp : (kvs.map Prod.fst).Pairwise (· < ·)) : sortDedup kvs = kvs := by
  have h := foldl_mapInsert_sorted kvs [] (by simpa using hp)
  simpa [sortDedup] using h

/-- Converting a well-shaped field value succeeds and strips it. -/
theorem convF_shaped : ∀ (ft : FieldTy) (v : Json), childOK ft → shapedF ft v = true →
    convF ft v = some (stripF ft v) := by
  intro ft v hok hs
  cases ft with
  | str => cases v <;> simp_all [convF, shapedF, stripF]
  | int => cases v <;> simp_all [convF, shapedF, stripF]
  | bool => cases v <;> simp_all [convF, shapedF, stripF]
  | nullInt => cases v <;> simp_all [convF, shapedF, stripF, zeroF]
  | arrStr => cases v <;> simp_all [convF, shapedF, stripF, zeroF]
  | mapStr =>
    cases v with
    | obj kvs =>
      simp only [shapedF, Bool.and_eq_true, decide_eq_true_eq] at hs
      simp [convF, stripF, hs.1, sortDedup_sorted kvs hs.2]
    | null => simp [convF, stripF, zeroF]
    | bool b => simp [shapedF] at hs
    | int n => simp [shapedF] at hs
    | str s => simp [shapedF] at hs
    | arr xs => simp [shapedF] at hs
  | nullObj m =>
    cases v with
    | null => simp [convF, stripF, zeroF]
    | obj kvs =>
      have h := hok (Json.obj kvs) hs
      simpa [convF, stripF, childOK] using h.1
    | bool b => exact absurd ((hok _ hs).2) (by simp)
    | int n => exact absurd ((hok _ hs).2) (by simp)
    | str s => exact absurd ((hok _ hs).2) (by simp)
    | arr xs => exact absurd ((hok _ hs).2) (by simp)
  | arrObj m =>
    cases v with
    | null => simp [convF, stripF, zeroF]
    | arr xs =>
      simp only [shapedF, List.all_eq_true] at hs
      have h := mapOptM_eq_some_map m.dec m.strip xs (fun x hx => (hok x (hs x hx)).1)
      simp [convF, stripF, h]
    | bool b => simp [shapedF] at hs
    | int n => simp [shapedF] at hs
    | str s => simp [shapedF] at hs
    | obj kvs => simp [shapedF] at hs
  | arrNullObj m =>
    cases v with
    | null => simp [convF, stripF, zeroF]
    | arr xs =>
      simp only [shapedF, List.all_eq_true, Bool.or_eq_true] at hs
      have h := mapOptM_eq_some_map
        (fun x => if Json.isNull x then some Json.null else m.dec x)
        (fun x => if Json.isNull x then Json.null else m.strip x) xs ?_
      · simp [convF, stripF, h]
      · intro x hx
        rcases hs x hx with hn | hsh
        · simp [hn]
        · have hx2 := hok x hsh
          rcases hx2.2 with ⟨kvs, rfl⟩
          simpa [Json.isNull] using hx2.1
    | bool b => simp [shapedF] at hs
    | int n => simp [shapedF] at hs
    | str s => simp [shapedF] at hs
    | obj kvs => simp [shapedF] at hs

/-- Field decoding only looks keys up, so payloads with identical lookups
decode identically. -/
theorem decodeFields_congr :
    ∀ (spec : List (String × FieldTy)) (kvs kvs2 : List (String × Json)),
      (∀ f ∈ spec, lookupKV f.1 kvs = lookupKV f.1 kvs2) →
      decodeFields spec kvs = decodeFields spec kvs2 := by
  intro spec
  induction spec with
  | nil => intro _ _ _; rfl
  | cons f rest ih =>
    intro kvs kvs2 h
    simp only [decodeFields, decodeField, h f (by simp),
      ih kvs kvs2 (fun g hg => h g (by simp [hg]))]

/-- Decoding a well-shaped payload object produces exactly its documented
part: unknown keys are ignored, documented values are preserved.  `spec` is
the not-yet-consumed tail of the full tag list `spec0`. -/
theorem decodeFields_shaped :
    ∀ (kvs : List (String × Json)) (spec spec0 : List (String × FieldTy)),
      (∀ f ∈ spec, lookupKV f.1 spec0 = some f.2) →
      (spec.map Prod.fst).Nodup →
      (∀ f ∈ spec, childOK f.2) →
      shapedFields (spec0.map (fun f => lowerStr f.1)) spec kvs = true →
      decodeFields spec kvs = some (stripFields spec0 kvs) := by
  intro kvs
  induction kvs with
  | nil =>
    intro spec spec0 _ _ _ hs
    have : spec = [] := by
      cases spec with
      | nil => rfl
      | cons f rest => simp [shapedFields] at hs
    subst this
    simp [decodeFields, stripFields]
  | cons kv rest ih =>
    intro spec spec0 hsub hnd hch hs
    rcases kv with ⟨k, v⟩
    cases spec with
    | nil =>
      simp only [shapedFields, Bool.and_eq_true, decide_eq_true_eq] at hs
      have hnotin : k ∉ spec0.map Prod.fst := by
        intro hmem
        exact hs.1 (by
          have := List.mem_map_of_mem (fun s => lowerStr s) hmem
          simpa [Function.comp] using this)
      have h0 := ih [] spec0 (by simp) (by simp) (by simp) hs.2
      simp only [decodeFields] at h0 ⊢
      simpa [stripFields, List.filterMap_cons, lookupKV_eq_none hnotin] using h0
    | cons f spec2 =>
      by_cases hk : k = f.1
      · subst hk
        simp only [shapedFields, eq_self_iff_true, if_true, Bool.and_eq_true] at hs
        simp only [List.map_cons, List.nodup_cons] at hnd
        have hcongr : decodeFields spec2 ((f.1, v) :: rest) = decodeFields spec2 rest := by
          apply decodeFields_congr
          intro g hg
          have hne : g.1 ≠ f.1 := by
            intro he
            exact hnd.1 (he ▸ List.mem_map_of_mem Prod.fst hg)
          simp [lookupKV, if_neg hne]
        have hrec := ih spec2 spec0 (fun g hg => hsub g (by simp [hg])) hnd.2
          (fun g hg => hch g (by simp [hg])) hs.2
        have hconv := convF_shaped f.2 v (hch f (by simp)) hs.1
        have hlook0 : lookupKV f.1 spec0 = some f.2 := hsub f (by simp)
        simp [decodeFields, decodeField, lookupKV, hconv, hcongr, hrec,
          stripFields, List.filterMap_cons, hlook0]
      · simp only [shapedFields, if_neg hk, Bool.and_eq_true, decide_eq_true_eq] at hs
        have hnotin : k ∉ spec0.map Prod.fst := by
          intro hmem
          exact hs.1 (by
            have := List.mem_map_of_mem (fun s => lowerStr s) hmem
            simpa [Function.comp] using this)
        have hcongr : decodeFields (f :: spec2) ((k, v) :: rest)
            = decodeFields (f :: spec2) rest := by
          apply decodeFields_congr
          intro g hg
          have hne : g.1 ≠ k := by
            intro he
            apply hs.1
            have := lookupKV_mem (hsub g hg)
            have := List.mem_map_of_mem (fun s => lowerStr s) this
            simpa [Function.comp, he] using this
          simp [lookupKV, if_neg hne]
        have hrec := ih (f :: spec2) spec0 hsub hnd hch hs.2
        simp [hcongr, hrec, stripFields, List.filterMap_cons, lookupKV_eq_none hnotin]

/-- Struct models built from a duplicate-free tag list whose struct-valued
fields are sound are sound. -/
theorem mkObjModel_ok (spec : List (String × FieldTy))
    (hnd : (spec.map Prod.fst).Nodup)
    (hch : ∀ f ∈ spec, childOK f.2) : (mkObjModel spec).ok := by
  intro v hs
  cases v with
  | obj kvs =>
    refine ⟨?_, kvs, rfl⟩
    simp only [mkObjModel, shapedObj] at hs
    have h := decodeFields_shaped kvs spec spec (lookupKV_self hnd) hnd hch hs
    simp [mkObjModel, decodeObj, stripObj, h]
  | null => simp [mkObjModel, shapedObj] at hs
  | bool b => simp [mkObjModel, shapedObj] at hs
  | int n => simp [mkObjModel, shapedObj] at hs
  | str s => simp [mkObjModel, shapedObj] at hs
  | arr xs => simp [mkObjModel, shapedObj] at hs

/-- Tag list of Go struct `TrustStore`. -/
def trustStoreSpec : List (String × FieldTy) :=
  [("rootStore", .str), ("isTrusted", .bool), ("trustErrorMessage", .str)]

/-- Decoded view of `TrustStore`. -/
def trustStoreModel : ObjModel := mkObjModel trustStoreSpec

/-- `TrustStore` decoding is sound. -/
theorem trustStoreModel_ok : trustStoreModel.ok :=
  mkObjModel_ok _ (by decide) (by simp [trustStoreSpec, childOK])

/-- Tag list of Go struct `TrustPath`. -/
def trustPathSpec : List (String × FieldTy) :=
  [("certIds", .arrStr), ("trust", .arrNullObj trustStoreModel)]

/-- Decoded view of `TrustPath`. -/
def trustPathModel : ObjModel := mkObjModel trustPathSpec

/-- `TrustPath` decoding is sound. -/
theorem trustPathModel_ok : trustPathModel.ok :=
  mkObjModel_ok _ (by decide) (by simp [trustPathSpec, childOK, trustStoreModel_ok])

/-- Tag list of Go struct `ChainCert`. -/
def chainCertSpec : List (String × FieldTy) :=
  [("id", .str), ("certIds", .arrStr), ("trustPaths", .arrNullObj trustPathModel),
   ("issues", .int), ("noSni", .bool)]

/-- Decoded view of `ChainCert`. -/
def chainCertModel : ObjModel := mkObjModel chainCertSpec

/-- `ChainCert` decoding is sound. -/
theorem chainCertModel_ok : chainCertModel.ok :=
  mkObjModel_ok _ (by decide) (by simp [chainCertSpec, childOK, trustPathModel_ok])

/-- Tag list of Go struct `NamedGroup`. -/
def namedGroupSpec : List (String × FieldTy) :=
  [("id", .int), ("name", .str), ("bits", .int), ("namedGroupType", .str)]

/-- Decoded view of `NamedGroup`. -/
def namedGroupModel : ObjModel := mkObjModel namedGroupSpec

/-- `NamedGroup` decoding is sound. -/
theorem namedGroupModel_ok : namedGroupModel.ok :=
  mkObjModel_ok _ (by decide) (by simp [namedGroupSpec, childOK])

/-- Tag list of Go struct `NamedGroups`. -/
def namedGroupsSpec : List (String × FieldTy) :=
  [("list", .arrObj namedGroupModel), ("preference", .bool)]

/-- Decoded view of `NamedGroups`. -/
def namedGroupsModel : ObjModel := mkObjModel namedGroupsSpec

/-- `NamedGroups` decoding is sound. -/
theorem namedGroupsModel_ok : namedGroupsModel.ok :=
  mkObjModel_ok _ (by decide) (by simp [namedGroupsSpec, childOK, namedGroupModel_ok])

/-- Tag list of Go struct `Protocol`. -/
def protocolSpec : List (String × FieldTy) :=
  [("id", .int), ("name", .str), ("version", .str), ("v2SuitesDisabled", .bool),
   ("q", .nullInt)]

/-- Decoded view of `Protocol`. -/
def protocolModel : ObjModel := mkObjModel protocolSpec

/-- `Protocol` decoding is sound. -/
theorem protocolModel_ok : protocolModel.ok :=
  mkObjModel_ok _ (by decide) (by simp [protocolSpec, childOK])

/-- Tag list of Go struct `Suite`. -/
def suiteSpec : List (String × FieldTy) :=
  [("id", .int), ("name", .str), ("cipherStrength", .int), ("kxType", .str),
   ("kxStrength", .int), ("dhBits", .int), ("dhG", .int), ("dhP", .int), ("dhYs", .int),
   ("namedGroupBits", .int), ("namedGroupId", .int), ("namedGroupName", .str),
   ("q", .nullInt)]

/-- Decoded view of `Suite`. -/
def suiteModel : ObjModel := mkObjModel suiteSpec

/-- `Suite` decoding is sound. -/
theorem suiteModel_ok : suiteModel.ok :=
  mkObjModel_ok _ (by decide) (by simp [suiteSpec, childOK])

/-- Tag list of Go struct `ProtocolSuites`. -/
def protocolSuitesSpec : List (String × FieldTy) :=
  [("protocol", .int), ("list", .arrNullObj suiteModel), ("preference", .bool)]

/-- Decoded view of `ProtocolSuites`. -/
def protocolSuitesModel : ObjModel := mkObjModel protocolSuitesSpec

/-- `ProtocolSuites` decoding is sound. -/
theorem protocolSuitesModel_ok : protocolSuitesModel.ok :=
  mkObjModel_ok _ (by decide) (by simp [protocolSuitesSpec, childOK, suiteModel_ok])

/-- Tag list of Go struct `SimClient`. -/
def simClientSpec : List (String × FieldTy) :=
  [("id", .int), ("name", .str), ("platform", .str), ("version", .str),
   ("isReference", .bool)]

/-- Decoded view of `SimClient`. -/
def simClientModel : ObjModel := mkObjModel simClientSpec

/-- `SimClient` decoding is sound. -/
theorem simClientModel_ok : simClientModel.ok :=
  mkObjModel_ok _ (by decide) (by simp [simClientSpec, childOK])

/-- Tag list of Go struct `SIM`. -/
def simSpec : List (String × FieldTy) :=
  [("client", .nullObj simClientModel), ("errorCode", .int), ("errorMessage", .str),
   ("attempts", .int), ("certChainId", .str), ("protocolId", .int), ("suiteId", .int),
   ("suiteName", .str), ("kxType", .str), ("kxStrength", .int), ("dhBits", .int),
   ("dhG", .int), ("dhP", .int), ("dhYs", .int), ("namedGroupBits", .int),
   ("namedGroupId", .int), ("namedGroupName", .str), ("keyAlg", .str), ("keySize", .int),
   ("sigAlg", .str)]

/-- Decoded view of `SIM`. -/
def simModel : ObjModel := mkObjModel simSpec

/-- `SIM` decoding is sound. -/
theorem simModel_ok : simModel.ok :=
  mkObjModel_ok _ (by decide) (by simp [simSpec, childOK, simClientModel_ok])

/-- Tag list of Go struct `SIMS`. -/
def simsSpec : List (String × FieldTy) :=
  [("results", .arrNullObj simModel)]

/-- Decoded view of `SIMS`. -/
def simsModel : ObjModel := mkObjModel simsSpec

/-- `SIMS` decoding is sound. -/
theorem simsModel_ok : simsModel.ok :=
  mkObjModel_ok _ (by decide) (by simp [simsSpec, childOK, simModel_ok])

/-- Tag list of Go struct `HSTSPolicy`. -/
def hstsPolicySpec : List (String × FieldTy) :=
  [("LONG_MAX_AGE", .int), ("header", .str), ("status", .str), ("error", .str),
   ("maxAge", .int), ("includeSubDomains", .bool), ("preload", .bool),
   ("directives", .mapStr)]

/-- Decoded view of `HSTSPolicy`. -/
def hstsPolicyModel : ObjModel := mkObjModel hstsPolicySpec

/-- `HSTSPolicy` decoding is sound. -/
theorem hstsPolicyModel_ok : hstsPolicyModel.ok :=
  mkObjModel_ok _ (by decide) (by simp [hstsPolicySpec, childOK])

/-- Tag list of Go struct `HSTSPreload`. -/
def hstsPreloadSpec : List (String × FieldTy) :=
  [("source", .str), ("hostname", .str), ("status", .str), ("error", .str),
   ("sourceTime", .int)]

/-- Decoded view of `HSTSPreload`. -/
def hstsPreloadModel : ObjModel := mkObjModel hstsPreloadSpec

/-- `HSTSPreload` decoding is sound. -/
theorem hstsPreloadModel_ok : hstsPreloadModel.ok :=
  mkObjModel_ok _ (by decide) (by simp [hstsPreloadSpec, childOK])

/-- Tag list of Go struct `Pin`. -/
def pinSpec : List (String × FieldTy) :=
  [("hashFunction", .str), ("value", .str)]

/-- Decoded view of `Pin`. -/
def pinModel : ObjModel := mkObjModel pinSpec

/-- `Pin` decoding is sound. -/
theorem pinModel_ok : pinModel.ok :=
  mkObjModel_ok _ (by decide) (by simp [pinSpec, childOK])

/-- Tag list of Go struct `Directive`. -/
def directiveSpec : List (String × FieldTy) :=
  [("name", .str), ("value", .str)]

/-- Decoded view of `Directive`. -/
def directiveModel : ObjModel := mkObjModel directiveSpec

/-- `Directive` decoding is sound. -/
theorem directiveModel_ok : directiveModel.ok :=
  mkObjModel_ok _ (by decide) (by simp [directiveSpec, childOK])

/-- Tag list of Go struct `HPKPPolicy`. -/
def hpkpPolicySpec : List (String × FieldTy) :=
  [("header", .str), ("status", .str), ("error", .str), ("maxAge", .int),
   ("includeSubDomains", .bool), ("reportUri", .str), ("pins", .arrObj pinModel),
   ("matchedPins", .arrObj pinModel), ("directives", .arrObj directiveModel)]

/-- Decoded view of `HPKPPolicy`. -/
def hpkpPolicyModel : ObjModel := mkObjModel hpkpPolicySpec

/-- `HPKPPolicy` decoding is sound. -/
theorem hpkpPolicyModel_ok : hpkpPolicyModel.ok :=
  mkObjModel_ok _ (by decide)
    (by simp [hpkpPolicySpec, childOK, pinModel_ok, directiveModel_ok])

/-- Tag list of Go struct `SPKPPolicy`. -/
def spkpPolicySpec : List (String × FieldTy) :=
  [("status", .str), ("error", .str), ("includeSubDomains", .bool), ("reportUri", .str),
   ("pins", .arrObj pinModel), ("matchedPins", .arrObj pinModel),
   ("forbiddenPins", .arrObj pinModel), ("matchedForbiddenPins", .arrObj pinModel)]

/-- Decoded view of `SPKPPolicy`. -/
def spkpPolicyModel : ObjModel := mkObjModel spkpPolicySpec

/-- `SPKPPolicy` decoding is sound. -/
theorem spkpPolicyModel_ok : spkpPolicyModel.ok :=
  mkObjModel_ok _ (by decide) (by simp [spkpPolicySpec, childOK, pinModel_ok])

/-- Tag list of Go struct `DrownHost`. -/
def drownHostSpec : List (String × FieldTy) :=
  [("export", .bool), ("ip", .str), ("port", .int), ("special", .bool),
   ("sslv2", .bool), ("status", .str)]

/-- Decoded view of `DrownHost`. -/
def drownHostModel : ObjModel := mkObjModel drownHostSpec

/-- `DrownHost` decoding is sound. -/
theorem drownHostModel_ok : drownHostModel.ok :=
  mkObjModel_ok _ (by decide) (by simp [drownHostSpec, childOK])

/-- Tag list of Go struct `CAARecord`. -/
def caaRecordSpec : List (String × FieldTy) :=
  [("tag", .str), ("value", .str), ("flags", .int)]

/-- Decoded view of `CAARecord`. -/
def caaRecordModel : ObjModel := mkObjModel caaRecordSpec

/-- `CAARecord` decoding is sound. -/
theorem caaRecordModel_ok : caaRecordModel.ok :=
  mkObjModel_ok _ (by decide) (by simp [caaRecordSpec, childOK])

/-- Tag list of Go struct `CAAPolicy`. -/
def caaPolicySpec : List (String × FieldTy) :=
  [("policyHostname", .str), ("caaRecords", .arrObj caaRecordModel)]

/-- Decoded view of `CAAPolicy`. -/
def caaPolicyModel : ObjModel := mkObjModel caaPolicySpec

/-- `CAAPolicy` decoding is sound. -/
theorem caaPolicyModel_ok : caaPolicyModel.ok :=
  mkObjModel_ok _ (by decide) (by simp [caaPolicySpec, childOK, caaRecordModel_ok])

/-- Tag list of Go struct `HTTPHeader`. -/
def httpHeaderSpec : List (String × FieldTy) :=
  [("name", .str), ("value", .str)]

/-- Decoded view of `HTTPHeader`. -/
def httpHeaderModel : ObjModel := mkObjModel httpHeaderSpec

/-- `HTTPHeader` decoding is sound. -/
theorem httpHeaderModel_ok : httpHeaderModel.ok :=
  mkObjModel_ok _ (by decide) (by simp [httpHeaderSpec, childOK])

/-- Tag list of Go struct `HTTPTransaction`. -/
def httpTransactionSpec : List (String × FieldTy) :=
  [("requestUrl", .str), ("statusCode", .int), ("requestLine", .str),
   ("requestHeaders", .arrStr), ("responseLine", .str), ("responseHeadersRaw", .arrStr),
   ("responseHeaders", .arrObj httpHeaderModel), ("fragileServer", .bool)]

/-- Decoded view of `HTTPTransaction`. -/
def httpTransactionModel : ObjModel := mkObjModel httpTransactionSpec

/-- `HTTPTransaction` decoding is sound. -/
theorem httpTransactionModel_ok : httpTransactionModel.ok :=
  mkObjModel_ok _ (by decide) (by simp [httpTransactionSpec, childOK, httpHeaderModel_ok])

/-- Tag list of Go struct `Cert`. -/
def certSpec : List (String × FieldTy) :=
  [("id", .str), ("subject", .str), ("serialNumber", .str), ("commonNames", .arrStr),
   ("altNames", .arrStr), ("notBefore", .int), ("notAfter", .int), ("issuerSubject", .str),
   ("sigAlg", .str), ("revocationInfo", .int), ("crlURIs", .arrStr), ("ocspURIs", .arrStr),
   ("revocationStatus", .int), ("crlRevocationStatus", .int), ("ocspRevocationStatus", .int),
   ("dnsCaa", .bool), ("caaPolicy", .nullObj caaPolicyModel), ("mustStaple", .bool),
   ("sgc", .int), ("validationType", .str), ("issues", .int), ("sct", .bool),
   ("sha1Hash", .str), ("sha256Hash", .str), ("pinSha256", .str), ("keyAlg", .str),
   ("keySize", .int), ("keyStrength", .int), ("keyKnownDebianInsecure", .bool),
   ("raw", .str)]

/-- Decoded view of `Cert`. -/
def certModel : ObjModel := mkObjModel certSpec

/-- `Cert` decoding is sound. -/
theorem certModel_ok : certModel.ok :=
  mkObjModel_ok _ (by decide) (by simp [certSpec, childOK, caaPolicyModel_ok])

/-- Tag list of Go struct `EndpointDetails`. -/
def endpointDetailsSpec : List (String × FieldTy) :=
  [("hostStartTime", .int),
   ("certChains", .arrNullObj chainCertModel),
   ("protocols", .arrNullObj protocolModel),
   ("suites", .arrNullObj protocolSuitesModel),
   ("noSniSuites", .nullObj protocolSuitesModel),
   ("namedGroups", .nullObj namedGroupsModel),
   ("serverSignature", .str),
   ("prefixDelegation", .bool),
   ("nonPrefixDelegation", .bool),
   ("vulnBeast", .bool),
   ("renegSupport", .int),
   ("sessionResumption", .int),
   ("compressionMethods", .int),
   ("supportsNpn", .bool),
   ("npnProtocols", .str),
   ("supportsAlpn", .bool),
   ("alpnProtocols", .str),
   ("sessionTickets", .int),
   ("ocspStapling", .bool),
   ("staplingRevocationStatus", .int),
   ("staplingRevocationErrorMessage", .str),
   ("sniRequired", .bool),
   ("httpStatusCode", .int),
   ("httpForwarding", .str),
   ("supportsRc4", .bool),
   ("rc4WithModern", .bool),
   ("rc4Only", .bool),
   ("forwardSecrecy", .int),
   ("supportsAead", .bool),
   ("supportsCBC", .bool),
   ("protocolIntolerance", .int),
   ("miscIntolerance", .int),
   ("sims", .nullObj simsModel),
   ("heartbleed", .bool),
   ("heartbeat", .bool),
   ("openSslCcs", .int),
   ("openSSLLuckyMinus20", .int),
   ("ticketbleed", .int),
   ("bleichenbacher", .int),
   ("zombiePoodle", .int),
   ("goldenDoodle", .int),
   ("zeroLengthPaddingOracle", .int),
   ("sleepingPoodle", .int),
   ("poodle", .bool),
   ("poodleTls", .int),
   ("fallbackScsv", .bool),
   ("freak", .bool),
   ("hasSct", .int),
   ("dhPrimes", .arrStr),
   ("dhUsesKnownPrimes", .int),
   ("dhYsReuse", .bool),
   ("ecdhParameterReuse", .bool),
   ("logjam", .bool),
   ("chaCha20Preference", .bool),
   ("hstsPolicy", .nullObj hstsPolicyModel),
   ("hstsPreloads", .arrObj hstsPreloadModel),
   ("hpkpPolicy", .nullObj hpkpPolicyModel),
   ("hpkpRoPolicy", .nullObj hpkpPolicyModel),
   ("staticPkpPolicy", .nullObj spkpPolicyModel),
   ("httpTransactions", .arrNullObj httpTransactionModel),
   ("drownHosts", .arrObj drownHostModel),
   ("drownErrors", .bool),
   ("drownVulnerable", .bool),
   ("implementsTLS13MandatoryCS", .bool),
   ("zeroRTTEnabled", .int)]

/-- Decoded view of `EndpointDetails`. -/
def endpointDetailsModel : ObjModel := mkObjModel endpointDetailsSpec

/-- `EndpointDetails` decoding is sound. -/
theorem endpointDetailsModel_ok : endpointDetailsModel.ok :=
  mkObjModel_ok _ (by decide)
    (by simp [endpointDetailsSpec, childOK, chainCertModel_ok, protocolModel_ok,
      protocolSuitesModel_ok, namedGroupsModel_ok, simsModel_ok, hstsPolicyModel_ok,
      hstsPreloadModel_ok, hpkpPolicyModel_ok, spkpPolicyModel_ok,
      httpTransactionModel_ok, drownHostModel_ok])

/-- Tag list of Go struct `EndpointInfo`. -/
def endpointInfoSpec : List (String × FieldTy) :=
  [("ipAddress", .str), ("serverName", .str), ("statusMessage", .str),
   ("statusDetails", .str), ("statusDetailsMessage", .str), ("grade", .str),
   ("gradeTrustIgnored", .str), ("futureGrade", .str), ("hasWarnings", .bool),
   ("isExceptional", .bool), ("progress", .int), ("duration", .int), ("eta", .int),
   ("delegation", .int), ("details", .nullObj endpointDetailsModel)]

/-- Decoded view of `EndpointInfo`. -/
def endpointInfoModel : ObjModel := mkObjModel endpointInfoSpec

/-- `EndpointInfo` decoding is sound. -/
theorem endpointInfoModel_ok : endpointInfoModel.ok :=
  mkObjModel_ok _ (by decide) (by simp [endpointInfoSpec, childOK, endpointDetailsModel_ok])

/-- Tag list of Go struct `AnalyzeInfo`. -/
def analyzeInfoSpec : List (String × FieldTy) :=
  [("host", .str), ("port", .int), ("protocol", .str), ("isPublic", .bool),
   ("status", .str), ("statusMessage", .str), ("startTime", .int), ("testTime", .int),
   ("engineVersion", .str), ("criteriaVersion", .str), ("cacheExpiryTime", .int),
   ("certHostnames", .arrStr), ("endpoints", .arrNullObj endpointInfoModel),
   ("certs", .arrNullObj certModel)]

/-- Decoded view of `AnalyzeInfo`. -/
def analyzeInfoModel : ObjModel := mkObjModel analyzeInfoSpec

/-- `AnalyzeInfo` decoding is sound. -/
theorem analyzeInfoModel_ok : analyzeInfoModel.ok :=
  mkObjModel_ok _ (by decide)
    (by simp [analyzeInfoSpec, childOK, endpointInfoModel_ok, certModel_ok])

/-- Tag list of Go struct `Info`. -/
def infoSpec : List (String × FieldTy) :=
  [("engineVersion", .str), ("criteriaVersion", .str), ("maxAssessments", .int),
   ("currentAssessments", .int), ("newAssessmentCoolOff", .int), ("messages", .arrStr)]

/-- Decoded view of `Info`. -/
def infoModel : ObjModel := mkObjModel infoSpec

/-- `Info` decoding is sound. -/
theorem infoModel_ok : infoModel.ok :=
  mkObjModel_ok _ (by decide) (by simp [infoSpec, childOK])

/-- Go constant `API_URL_INFO`. -/
def API_URL_INFO : String := "https://api.ssllabs.com/api/v3/info"

/-- Go constant `API_URL_ANALYZE`. -/
def API_URL_ANALYZE : String := "https://api.ssllabs.com/api/v3/analyze"

/-- Go constant `API_URL_DETAILED`. -/
def API_URL_DETAILED : String := "https://api.ssllabs.com/api/v3/getEndpointData"

/-- Go constant `STATUS_READY`. -/
def STATUS_READY : String := "READY"

/-- Go struct `AnalyzeParams` (request options of `Analyze`). -/
structure AnalyzeParams where
  Public : Bool
  StartNew : Bool
  FromCache : Bool
  MaxAge : Int
  IgnoreMismatch : Bool

/-- Go struct `AnalyzeProgress` (the poller handle); the `api` back pointer
is modelled by passing the transport to each method. -/
structure AnalyzeProgress where
  host : String
  prevStatus : String
  maxAge : Int

/-- Drop the final byte of a string (Go `result[:len(result)-1]`; at every
use site the final byte is a one-byte `&` character, so this equals
dropping the last character). -/
def stripLastByte (s : String) : String := String.mk s.data.dropLast

/-- The accumulated `result` string of Go's `paramsToQuery` before the
final trailing-separator check. -/
def rawQuery (params : AnalyzeParams) : String :=
  let r1 : String := ""
  let r2 := if params.Public then r1 ++ "publish=on&" else r1
  let r3 := if params.StartNew then r2 ++ "startNew=on&" else r2
  let r4 := if params.FromCache then r3 ++ "fromCache=on&" else r3
  let r5 := if params.MaxAge ≠ 0 then r4 ++ "maxAge=" ++ toString params.MaxAge ++ "&" else r4
  if params.IgnoreMismatch then r5 ++ "ignoreMismatch=on&" else r5

/-- Go function `paramsToQuery` (the lightweight query encoder): emit
`publish`, `startNew`, `fromCache`, `maxAge`, `ignoreMismatch` fragments
each followed by `&`, then drop the trailing separator. -/
def paramsToQuery (params : AnalyzeParams) : String :=
  if (rawQuery params).length ≠ 0 then stripLastByte (rawQuery params) else ""

/-- Join fragments with single `&` separators and no trailing separator
(the shape the spec ascribes to the emitted query strings). -/
def joinAmp : List String → String
  | [] => ""
  | [x] => x
  | x :: xs => x ++ "&" ++ joinAmp xs

/-- The fragments the spec says `paramsToQuery` emits, in the fixed order
publish, startNew, fromCache, maxAge, ignoreMismatch. -/
def queryFragments (params : AnalyzeParams) : List String :=
  (if params.Public then ["publish=on"] else []) ++
  (if params.StartNew then ["startNew=on"] else []) ++
  (if params.FromCache then ["fromCache=on"] else []) ++
  (if params.MaxAge ≠ 0 then ["maxAge=" ++ toString params.MaxAge] else []) ++
  (if params.IgnoreMismatch then ["ignoreMismatch=on"] else [])

/-- Dropping the final byte undoes appending an ampersand. -/
theorem strip_amp (x : String) : stripLastByte (x ++ "&") = x := by
  cases x with
  | mk data =>
    apply String.ext
    simp [stripLastByte, String.data_append]

/-- Dropping the final byte after an `ignoreMismatch=on&` fragment. -/
theorem strip_mismatch (x : String) :
    stripLastByte (x ++ "ignoreMismatch=on&") = x ++ "ignoreMismatch=on" := by
  have e : ("ignoreMismatch=on&" : String) = "ignoreMismatch=on" ++ "&" := rfl
  rw [e, ← String.append_assoc, strip_amp]

/-- The final-separator check of `paramsToQuery` is equivalent to always
dropping the final byte (dropping from the empty string is the identity). -/
theorem paramsToQuery_eq_strip (p : AnalyzeParams) :
    paramsToQuery p = stripLastByte (rawQuery p) := by
  unfold paramsToQuery
  by_cases h : (rawQuery p).length ≠ 0
  · rw [if_pos h]
  · rw [if_neg h]
    push_neg at h
    have hd : (rawQuery p).data = [] := List.length_eq_zero.mp h
    have he : rawQuery p = "" := String.ext hd
    rw [he]
    rfl

/-- `paramsToQuery` emits exactly the spec's fragments in their fixed
order, joined by `&` with no trailing separator. -/
theorem paramsToQuery_frags (p : AnalyzeParams) :
    paramsToQuery p = joinAmp (queryFragments p) := by
  rw [paramsToQuery_eq_strip]
  rcases p with ⟨pb, sn, fc, ma, im⟩
  by_cases hma : ma = 0 <;>
    cases pb <;> cases sn <;> cases fc <;> cases im <;>
      simp only [rawQuery, queryFragments, hma, if_true, if_false, Bool.false_eq_true,
        not_false_eq_true, ite_true, ite_false, ne_eq, not_true_eq_false,
        List.append_nil, List.nil_append, List.append_assoc, List.cons_append] <;>
      first
        | rfl
        | (rw [strip_mismatch]
           simp [joinAmp, ← String.append_assoc])
        | (rw [← String.append_assoc, strip_amp]
           simp [joinAmp, ← String.append_assoc])
        | simp [joinAmp, strip_amp, ← String.append_assoc]

/-- Splitting the `&all=on` literal at its separator. -/
theorem amp_all (a : String) : a ++ "&all=on" = (a ++ "&") ++ "all=on" := by
  rw [String.append_assoc]
  exact congrArg (fun x => a ++ x) rfl

/-- Splitting the `&fromCache=on` literal at its separator. -/
theorem amp_cache (a : String) : a ++ "&fromCache=on" = (a ++ "&") ++ "fromCache=on" := by
  rw [String.append_assoc]
  exact congrArg (fun x => a ++ x) rfl

/-- Splitting the `&maxAge=` literal at its separator. -/
theorem amp_max (a : String) : a ++ "&maxAge=" = (a ++ "&") ++ "maxAge=" := by
  rw [String.append_assoc]
  exact congrArg (fun x => a ++ x) rfl

/-- Splitting the `&s=` literal at its separator. -/
theorem amp_s (a : String) : a ++ "&s=" = (a ++ "&") ++ "s=" := by
  rw [String.append_assoc]
  exact congrArg (fun x => a ++ x) rfl

/-- Query string built by Go's `AnalyzeProgress.Info`. -/
def infoQuery (ap : AnalyzeProgress) (detailed fromCache : Bool) : String :=
  let q1 := "host=" ++ ap.host
  let q2 := if detailed then q1 ++ "&all=on" else q1
  if fromCache then
    let q3 := q2 ++ "&fromCache=on"
    if ap.maxAge > 0 then q3 ++ "&maxAge=" ++ toString ap.maxAge else q3
  else q2

/-- The fragments of `infoQuery`, in emission order. -/
def infoQueryFrags (ap : AnalyzeProgress) (detailed fromCache : Bool) : List String :=
  ["host=" ++ ap.host] ++
  (if detailed then ["all=on"] else []) ++
  (if fromCache then
      ["fromCache=on"] ++ (if ap.maxAge > 0 then ["maxAge=" ++ toString ap.maxAge] else [])
    else [])

/-- `infoQuery` emits exactly its fragments joined by `&`. -/
theorem infoQuery_frags (ap : AnalyzeProgress) (detailed fromCache : Bool) :
    infoQuery ap detailed fromCache = joinAmp (infoQueryFrags ap detailed fromCache) := by
  cases detailed <;> cases fromCache <;> by_cases hma : ap.maxAge > 0 <;>
    simp only [infoQuery, infoQueryFrags, hma, if_true, if_false, Bool.false_eq_true,
      not_false_eq_true, ite_true, ite_false, List.append_nil, List.nil_append,
      List.cons_append, List.append_assoc] <;>
    simp only [amp_all, amp_cache, amp_max, joinAmp, ← String.append_assoc]

/-- Query string built by Go's `AnalyzeProgress.GetEndpointInfo` for the
endpoint-detail request. -/
def endpointQuery (ap : AnalyzeProgress) (ip : String) (fromCache : Bool) : String :=
  let q1 := "host=" ++ ap.host ++ "&s=" ++ ip
  if fromCache then
    let q2 := q1 ++ "&fromCache=on"
    if ap.maxAge > 0 then q2 ++ "&maxAge=" ++ toString ap.maxAge else q2
  else q1

/-- The fragments of `endpointQuery`, in emission order. -/
def endpointQueryFrags (ap : AnalyzeProgress) (ip : String) (fromCache : Bool) : List String :=
  ["host=" ++ ap.host, "s=" ++ ip] ++
  (if fromCache then
      ["fromCache=on"] ++ (if ap.maxAge > 0 then ["maxAge=" ++ toString ap.maxAge] else [])
    else [])

/-- `endpointQuery` emits exactly its fragments joined by `&`. -/
theorem endpointQuery_frags (ap : AnalyzeProgress) (ip : String) (fromCache : Bool) :
    endpointQuery ap ip fromCache = joinAmp (endpointQueryFrags ap ip fromCache) := by
  cases fromCache <;> by_cases hma : ap.maxAge > 0 <;>
    simp only [endpointQuery, endpointQueryFrags, hma, if_true, if_false, Bool.false_eq_true,
      not_false_eq_true, ite_true, ite_false, List.append_nil, List.nil_append,
      List.cons_append, List.append_assoc] <;>
    simp only [amp_s, amp_cache, amp_max, joinAmp, ← String.append_assoc]

/-- Query string built by Go's `API.Analyze` (`host=` plus the encoded
parameters; note the trailing `&` when no parameter is set). -/
def analyzeQuery (host : String) (params : AnalyzeParams) : String :=
  "host=" ++ host ++ "&" ++ paramsToQuery params

/-- The fragments of `analyzeQuery`: the host fragment followed by the
parameter fragments, or a single empty fragment when no parameter is set. -/
def analyzeQueryFrags (host : String) (params : AnalyzeParams) : List String :=
  ("host=" ++ host) ::
    (match queryFragments params with
     | [] => [""]
     | fs => fs)

/-- `analyzeQuery` emits exactly its fragments joined by `&`. -/
theorem analyzeQuery_frags (host : String) (params : AnalyzeParams) :
    analyzeQuery host params = joinAmp (analyzeQueryFrags host params) := by
  unfold analyzeQuery analyzeQueryFrags
  rw [paramsToQuery_frags]
  cases h : queryFragments params with
  | nil => simp [joinAmp]
  | cons f fs => simp [joinAmp]

/-- Abstract HTTP transport: the behaviour of `fasthttp.Client.Do` as seen
by this package, mapping a request URI to either a transport error or an
HTTP status code with a (parsed) response body.  The package only ever
issues GET requests (`fasthttp.AcquireRequest` yields a GET request and no
method is ever set), so no method field is modelled. -/
def Transport : Type := String → Except String (Int × Json)

/-- Go method `API.doRequest`, case `result != nil`: acquire a request for
`uri`, perform it once, return a transport error verbatim, turn a non-200
status into the formatted error without touching the body, and otherwise
decode the body (`json.Unmarshal`, abstracted as `dec`) returning its error
as-is.  The second component records the issued request URIs. -/
def doRequest (t : Transport) (uri : String) (dec : Json → Except String α) :
    Except String α × List String :=
  match t uri with
  | .error e => (.error e, [uri])
  | .ok (code, body) =>
    if code ≠ 200 then (.error ("API return HTTP code " ++ toString code), [uri])
    else
      match dec body with
      | .error e => (.error e, [uri])
      | .ok v => (.ok v, [uri])

/-- Go method `API.doRequest`, case `result == nil`: identical control
flow, but the body is never decoded. -/
def doRequestNil (t : Transport) (uri : String) : Except String Unit × List String :=
  match t uri with
  | .error e => (.error e, [uri])
  | .ok (code, _) =>
    if code ≠ 200 then (.error ("API return HTTP code " ++ toString code), [uri])
    else (.ok (), [uri])

/-- The fixed message standing for a `json.Unmarshal` failure. -/
def unmarshalErr : String := "json unmarshal error"

/-- `json.Unmarshal` into the struct described by `spec`, as an
`Except`-valued decoder over the canonical representation. -/
def decodeBody (spec : List (String × FieldTy)) (body : Json) : Except String Json :=
  match decodeObj spec body with
  | some v => .ok v
  | none => .error unmarshalErr

/-- Field access `info.Status` on a decoded `AnalyzeInfo` value. -/
def statusOf (v : Json) : String :=
  match v with
  | .obj kvs =>
    match lookupKV "status" kvs with
    | some (.str s) => s
    | _ => ""
  | _ => ""

/-- Go struct `API`: the decoded `Info` of the service (the `fasthttp`
client handle is modelled by the ambient `Transport`). -/
structure API where
  Info : Json

/-- Go function `NewAPI`: an empty app name is rejected before any request;
otherwise the info endpoint is fetched once and the decoded `Info` is
stored in the returned `API`; on failure `nil` and the error are
returned. -/
def NewAPI (t : Transport) (app version : String) : Except String API × List String :=
  if app = "" then (.error "App name can't be empty", [])
  else
    match doRequest t API_URL_INFO (decodeBody infoSpec) with
    | (.error e, tr) => (.error e, tr)
    | (.ok info, tr) => (.ok ⟨info⟩, tr)

/-- Go method `API.Analyze`: build the progress handle (`prevStatus` starts
at its zero value, `maxAge` copies `params.MaxAge`), issue one analyze
request with a `nil` decode target, and return the handle on success. -/
def Analyze (t : Transport) (host : String) (params : AnalyzeParams) :
    Except String AnalyzeProgress × List String :=
  let progress : AnalyzeProgress := ⟨host, "", params.MaxAge⟩
  match doRequestNil t (API_URL_ANALYZE ++ "?" ++ analyzeQuery host params) with
  | (.error e, tr) => (.error e, tr)
  | (.ok _, tr) => (.ok progress, tr)

/-- Go method `AnalyzeProgress.Info`: one analyze request decoded as
`AnalyzeInfo`; on success `prevStatus` is overwritten with the decoded
status; on any error the handle is returned unchanged. -/
def AnalyzeProgress.Info (ap : AnalyzeProgress) (t : Transport) (detailed fromCache : Bool) :
    Except String Json × AnalyzeProgress × List String :=
  match doRequest t (API_URL_ANALYZE ++ "?" ++ infoQuery ap detailed fromCache)
      (decodeBody analyzeInfoSpec) with
  | (.error e, tr) => (.error e, ap, tr)
  | (.ok info, tr) => (.ok info, { ap with prevStatus := statusOf info }, tr)

/-- The endpoint-detail fetch of `GetEndpointInfo` (the code after the
status guard): one request to the detailed endpoint decoded as
`EndpointInfo`. -/
def fetchEndpointDetail (ap : AnalyzeProgress) (t : Transport) (ip : String)
    (fromCache : Bool) : Except String Json × AnalyzeProgress × List String :=
  match doRequest t (API_URL_DETAILED ++ "?" ++ endpointQuery ap ip fromCache)
      (decodeBody endpointInfoSpec) with
  | (.error e, tr) => (.error e, ap, tr)
  | (.ok info, tr) => (.ok info, ap, tr)

/-- Go method `AnalyzeProgress.GetEndpointInfo`: when the stored status is
not READY, refresh it exactly once through a non-detailed, non-cached
`Info` call, propagating its error; refuse with an error if the status is
still not READY; otherwise issue the endpoint-detail request. -/
def AnalyzeProgress.GetEndpointInfo (ap : AnalyzeProgress) (t : Transport) (ip : String)
    (fromCache : Bool) : Except String Json × AnalyzeProgress × List String :=
  if ap.prevStatus ≠ STATUS_READY then
    match ap.Info t false false with
    | (.error e, ap2, tr) => (.error e, ap2, tr)
    | (.ok _, ap2, tr) =>
      if ap2.prevStatus ≠ STATUS_READY then
        (.error "Retrieving detailed information possible only with status READY", ap2, tr)
      else
        match fetchEndpointDetail ap2 t ip fromCache with
        | (r, ap3, tr2) => (r, ap3, tr ++ tr2)
  else fetchEndpointDetail ap t ip fromCache

/-- `doRequest` performs exactly one request, at the given URI. -/
theorem doRequest_trace (t : Transport) (uri : String) (dec : Json → Except String α) :
    (doRequest t uri dec).2 = [uri] := by
  unfold doRequest
  rcases t uri with e | ⟨code, body⟩
  · rfl
  · dsimp only
    split
    · rfl
    · rcases dec body with e | v <;> rfl

/-- `doRequestNil` performs exactly one request, at the given URI. -/
theorem doRequestNil_trace (t : Transport) (uri : String) :
    (doRequestNil t uri).2 = [uri] := by
  unfold doRequestNil
  rcases t uri with e | ⟨code, body⟩
  · rfl
  · dsimp only
    split <;> rfl

/-- `AnalyzeProgress.Info` performs exactly one request, to the analyze
endpoint with its query. -/
theorem info_trace (ap : AnalyzeProgress) (t : Transport) (detailed fromCache : Bool) :
    (ap.Info t detailed fromCache).2.2 =
      [API_URL_ANALYZE ++ "?" ++ infoQuery ap detailed fromCache] := by
  unfold AnalyzeProgress.Info
  rcases hdr : doRequest t (API_URL_ANALYZE ++ "?" ++ infoQuery ap detailed fromCache)
      (decodeBody analyzeInfoSpec) with ⟨res, tr⟩
  have htr : tr = [API_URL_ANALYZE ++ "?" ++ infoQuery ap detailed fromCache] := by
    have := doRequest_trace t (API_URL_ANALYZE ++ "?" ++ infoQuery ap detailed fromCache)
      (decodeBody analyzeInfoSpec)
    rw [hdr] at this
    exact this
  cases res <;> simp [hdr, htr]

/-- `AnalyzeProgress.Info` never changes the host or the stored maxAge. -/
theorem info_host_maxAge (ap : AnalyzeProgress) (t : Transport) (detailed fromCache : Bool) :
    (ap.Info t detailed fromCache).2.1.host = ap.host
    ∧ (ap.Info t detailed fromCache).2.1.maxAge = ap.maxAge := by
  unfold AnalyzeProgress.Info
  rcases hdr : doRequest t (API_URL_ANALYZE ++ "?" ++ infoQuery ap detailed fromCache)
      (decodeBody analyzeInfoSpec) with ⟨res, tr⟩
  cases res <;> simp [hdr]

/-- On error `AnalyzeProgress.Info` returns the handle unchanged. -/
theorem info_error_state (ap : AnalyzeProgress) (t : Transport) (detailed fromCache : Bool)
    (e : String) (h : (ap.Info t detailed fromCache).1 = .error e) :
    (ap.Info t detailed fromCache).2.1 = ap := by
  unfold AnalyzeProgress.Info at h ⊢
  rcases hdr : doRequest t (API_URL_ANALYZE ++ "?" ++ infoQuery ap detailed fromCache)
      (decodeBody analyzeInfoSpec) with ⟨res, tr⟩
  cases res <;> simp [hdr] at h ⊢

/-- On success `AnalyzeProgress.Info` overwrites `prevStatus` with the
decoded status and nothing else. -/
theorem info_ok_state (ap : AnalyzeProgress) (t : Transport) (detailed fromCache : Bool)
    (v : Json) (h : (ap.Info t detailed fromCache).1 = .ok v) :
    (ap.Info t detailed fromCache).2.1 = { ap with prevStatus := statusOf v } := by
  unfold AnalyzeProgress.Info at h ⊢
  rcases hdr : doRequest t (API_URL_ANALYZE ++ "?" ++ infoQuery ap detailed fromCache)
      (decodeBody analyzeInfoSpec) with ⟨res, tr⟩
  cases res with
  | error e => simp [hdr] at h ⊢
  | ok w =>
    simp [hdr] at h ⊢
    rw [h]

/-- The endpoint-detail fetch performs exactly one request, to the detailed
endpoint, and never changes the handle. -/
theorem fetchEndpointDetail_trace (ap : AnalyzeProgress) (t : Transport) (ip : String)
    (fromCache : Bool) :
    (fetchEndpointDetail ap t ip fromCache).2.2 =
      [API_URL_DETAILED ++ "?" ++ endpointQuery ap ip fromCache]
    ∧ (fetchEndpointDetail ap t ip fromCache).2.1 = ap := by
  unfold fetchEndpointDetail
  rcases hdr : doRequest t (API_URL_DETAILED ++ "?" ++ endpointQuery ap ip fromCache)
      (decodeBody endpointInfoSpec) with ⟨res, tr⟩
  have htr : tr = [API_URL_DETAILED ++ "?" ++ endpointQuery ap ip fromCache] := by
    have := doRequest_trace t (API_URL_DETAILED ++ "?" ++ endpointQuery ap ip fromCache)
      (decodeBody endpointInfoSpec)
    rw [hdr] at this
    exact this
  cases res <;> simp [hdr, htr]

/-- C1: for every handle and IP, `GetEndpointInfo` fetches endpoint detail
only when the last-known status is READY.  When the stored `prevStatus` is
not READY it refreshes the status exactly once, via a non-detailed,
non-cached `Info` call (whose query is just `host=<host>`), as the first
issued request; if the status is still not READY after that single refresh
it returns an error and the refresh request remains the only one issued (no
endpoint-detail request); if the refresh succeeds with status READY the
refresh and the endpoint-detail request are exactly the two issued
requests. -/
theorem getEndpointInfo_ready_guard (t : Transport) (ap : AnalyzeProgress)
    (ip : String) (fromCache : Bool) (h : ap.prevStatus ≠ STATUS_READY) :
    infoQuery ap false false = "host=" ++ ap.host
    ∧ (ap.GetEndpointInfo t ip fromCache).2.2.head? =
        some (API_URL_ANALYZE ++ "?" ++ infoQuery ap false false)
    ∧ ((ap.Info t false false).2.1.prevStatus ≠ STATUS_READY →
        (∃ e, (ap.GetEndpointInfo t ip fromCache).1 = Except.error e)
        ∧ (ap.GetEndpointInfo t ip fromCache).2.2 =
            [API_URL_ANALYZE ++ "?" ++ infoQuery ap false false])
    ∧ (∀ v, (ap.Info t false false).1 = Except.ok v →
        (ap.Info t false false).2.1.prevStatus = STATUS_READY →
        (ap.GetEndpointInfo t ip fromCache).2.2 =
          [API_URL_ANALYZE ++ "?" ++ infoQuery ap false false,
           API_URL_DETAILED ++ "?" ++ endpointQuery (ap.Info t false false).2.1 ip fromCache]) := by
  have htr := info_trace ap t false false
  refine ⟨rfl, ?_, ?_, ?_⟩
  all_goals
    unfold AnalyzeProgress.GetEndpointInfo
    rw [if_pos h]
    rcases hinfo : ap.Info t false false with ⟨res, ap2, tr⟩
    rw [hinfo] at htr
    simp only at htr
    subst htr
  · cases res with
    | error e => simp [hinfo]
    | ok w =>
      by_cases hr : ap2.prevStatus ≠ STATUS_READY
      · simp [hr]
      · rcases hfd : fetchEndpointDetail ap2 t ip fromCache with ⟨r2, ap3, tr2⟩
        have hft := fetchEndpointDetail_trace ap2 t ip fromCache
        rw [hfd] at hft
        simp only at hft
        simp [hr, hfd, hft.1]
  · intro hstill
    simp only at hstill
    cases res with
    | error e => simp [hinfo]
    | ok w => simp [hstill]
  · intro v hok hready
    simp only at hok hready
    cases res with
    | error e => simp at hok
    | ok w =>
      rcases hfd : fetchEndpointDetail ap2 t ip fromCache with ⟨r2, ap3, tr2⟩
      have hft := fetchEndpointDetail_trace ap2 t ip fromCache
      rw [hfd] at hft
      simp only at hft
      simp [hready, hfd, hft.1]

/-- C2: `doRequest` surfaces exactly two error kinds plus decode failure
and nothing else: a transport failure verbatim; a non-200 status as the
error `API return HTTP code <n>` with the body never decoded (the result
is independent of the decoder, and the `nil`-target variant behaves
identically); a decode failure as-is; and a 200 response decodes.  In
every case exactly one request is issued (no retry). -/
theorem doRequest_error_model (t : Transport) (uri : String)
    (dec dec2 : Json → Except String Json) :
    (∀ e, t uri = Except.error e → doRequest t uri dec = (Except.error e, [uri]))
    ∧ (∀ code body, t uri = Except.ok (code, body) → code ≠ 200 →
        doRequest t uri dec = (Except.error ("API return HTTP code " ++ toString code), [uri])
        ∧ doRequest t uri dec = doRequest t uri dec2
        ∧ doRequestNil t uri = (Except.error ("API return HTTP code " ++ toString code), [uri]))
    ∧ (∀ body e, t uri = Except.ok (200, body) → dec body = Except.error e →
        doRequest t uri dec = (Except.error e, [uri]))
    ∧ (∀ body v, t uri = Except.ok (200, body) → dec body = Except.ok v →
        doRequest t uri dec = (Except.ok v, [uri]))
    ∧ (doRequest t uri dec).2 = [uri]
    ∧ (doRequestNil t uri).2 = [uri] := by
  refine ⟨?_, ?_, ?_, ?_, doRequest_trace t uri dec, doRequestNil_trace t uri⟩
  · intro e he
    unfold doRequest
    rw [he]
  · intro code body ht hc
    unfold doRequest doRequestNil
    rw [ht]
    simp [hc]
  · intro body e ht hd
    unfold doRequest
    rw [ht]
    simp [hd]
  · intro body v ht hd
    unfold doRequest
    rw [ht]
    simp [hd]

/-- Witness for `doRequest_error_model` at concrete transports: a failing
transport propagates its error, a 404 yields the formatted error, a decode
failure is returned as-is, and exactly one request is issued each time. -/
theorem doRequest_error_model_witness :
    doRequest (fun _ => Except.error "conn refused") "u" (fun b => Except.ok b) =
      (Except.error "conn refused", ["u"])
    ∧ doRequest (fun _ => Except.ok (404, Json.null)) "u" (fun b => Except.ok b) =
      (Except.error "API return HTTP code 404", ["u"])
    ∧ doRequest (fun _ => Except.ok (200, Json.null)) "u"
        (fun _ => (Except.error "bad json" : Except String Json)) =
      (Except.error "bad json", ["u"]) := by
  refine ⟨?_, ?_, ?_⟩
  · exact (doRequest_error_model (fun _ => Except.error "conn refused") "u"
      (fun b => Except.ok b) (fun b => Except.ok b)).1 "conn refused" rfl
  · exact ((doRequest_error_model (fun _ => Except.ok (404, Json.null)) "u"
      (fun b => Except.ok b) (fun b => Except.ok b)).2.1 404 Json.null rfl (by decide)).1
  · exact (doRequest_error_model (fun _ => Except.ok (200, Json.null)) "u"
      (fun _ => (Except.error "bad json" : Except String Json))
      (fun _ => (Except.error "bad json" : Except String Json))).2.2.1
      Json.null "bad json" rfl rfl

/-- C3: `paramsToQuery` is deterministic (equal inputs give identical
strings) and order-stable: it emits exactly the fragments of
`queryFragments` (fixed order publish, startNew, fromCache, maxAge,
ignoreMismatch) joined by `&` with no trailing separator, and returns the
empty string when no flag is set and `MaxAge` is zero. -/
theorem paramsToQuery_spec (p q : AnalyzeParams) (hpq : p = q) :
    paramsToQuery p = paramsToQuery q
    ∧ paramsToQuery p = joinAmp (queryFragments p)
    ∧ (p.Public = false → p.StartNew = false → p.FromCache = false → p.MaxAge = 0 →
        p.IgnoreMismatch = false → paramsToQuery p = "") := by
  refine ⟨by rw [hpq], paramsToQuery_frags p, ?_⟩
  intro h1 h2 h3 h4 h5
  rcases p with ⟨pb, sn, fc, ma, im⟩
  simp only at h1 h2 h3 h4 h5
  subst h1
  subst h2
  subst h3
  subst h4
  subst h5
  rfl

/-- Witness for `paramsToQuery_spec`: all-defaults give the empty string,
and a concrete parameter set matches its fragment join. -/
theorem paramsToQuery_spec_witness :
    paramsToQuery (AnalyzeParams.mk false false false 0 false) = ""
    ∧ paramsToQuery (AnalyzeParams.mk true false true 5 false) =
        joinAmp (queryFragments (AnalyzeParams.mk true false true 5 false)) := by
  refine ⟨?_, ?_⟩
  · exact (paramsToQuery_spec (AnalyzeParams.mk false false false 0 false)
      (AnalyzeParams.mk false false false 0 false) rfl).2.2 rfl rfl rfl rfl rfl
  · exact (paramsToQuery_spec (AnalyzeParams.mk true false true 5 false)
      (AnalyzeParams.mk true false true 5 false) rfl).2.1

/-- Case analysis of `NewAPI`: empty app name short-circuits, otherwise one
info request whose outcome is propagated. -/
theorem newAPI_cases (t : Transport) (app version : String) :
    (app = "" → NewAPI t app version = (Except.error "App name can't be empty", []))
    ∧ (app ≠ "" →
        (NewAPI t app version).2 = [API_URL_INFO]
        ∧ (∀ e, (doRequest t API_URL_INFO (decodeBody infoSpec)).1 = Except.error e →
            (NewAPI t app version).1 = Except.error e)
        ∧ (∀ v, (doRequest t API_URL_INFO (decodeBody infoSpec)).1 = Except.ok v →
            (NewAPI t app version).1 = Except.ok (API.mk v))) := by
  constructor
  · intro h
    unfold NewAPI
    rw [if_pos h]
  · intro h
    unfold NewAPI
    rw [if_neg h]
    rcases hdr : doRequest t API_URL_INFO (decodeBody infoSpec) with ⟨res, tr⟩
    have htr : tr = [API_URL_INFO] := by
      have := doRequest_trace t API_URL_INFO (decodeBody infoSpec)
      rw [hdr] at this
      exact this
    subst htr
    cases res <;> simp

/-- C8: `NewAPI` with an empty app name errors without issuing any request;
with a non-empty app name it issues exactly one request, to the info
endpoint, and on success the returned `API` stores the decoded `Info`
response (on failure the error is returned instead of an `API`). -/
theorem newAPI_model (t : Transport) (app version : String) :
    (app = "" → NewAPI t app version = (Except.error "App name can't be empty", []))
    ∧ (app ≠ "" →
        (NewAPI t app version).2 = [API_URL_INFO]
        ∧ (∀ e, (doRequest t API_URL_INFO (decodeBody infoSpec)).1 = Except.error e →
            (NewAPI t app version).1 = Except.error e)
        ∧ (∀ v, (doRequest t API_URL_INFO (decodeBody infoSpec)).1 = Except.ok v →
            (NewAPI t app version).1 = Except.ok (API.mk v))) :=
  newAPI_cases t app version

/-- Witness for `newAPI_model`: the empty app name never reaches the
transport, and a non-empty one fetches the info endpoint. -/
theorem newAPI_model_witness :
    NewAPI (fun _ => Except.error "down") "" "1.0" =
      (Except.error "App name can't be empty", [])
    ∧ (NewAPI (fun _ => Except.error "down") "myapp" "1.0").2 = [API_URL_INFO] := by
  refine ⟨?_, ?_⟩
  · exact (newAPI_model (fun _ => Except.error "down") "" "1.0").1 rfl
  · exact ((newAPI_model (fun _ => Except.error "down") "myapp" "1.0").2 (by decide)).1

/-- Witness for `getEndpointInfo_ready_guard`: a stale handle with a
failing transport issues only the refresh request and returns an error. -/
theorem getEndpointInfo_ready_guard_witness :
    (AnalyzeProgress.mk "example.com" "" 0).prevStatus ≠ STATUS_READY
    ∧ (∃ e, ((AnalyzeProgress.mk "example.com" "" 0).GetEndpointInfo
        (fun _ => Except.error "net down") "1.2.3.4" false).1 = Except.error e)
    ∧ ((AnalyzeProgress.mk "example.com" "" 0).GetEndpointInfo
        (fun _ => Except.error "net down") "1.2.3.4" false).2.2 =
      [API_URL_ANALYZE ++ "?" ++ infoQuery (AnalyzeProgress.mk "example.com" "" 0)
        false false] := by
  refine ⟨by decide, ?_, ?_⟩
  · exact ((getEndpointInfo_ready_guard (fun _ => Except.error "net down")
      (AnalyzeProgress.mk "example.com" "" 0) "1.2.3.4" false (by decide)).2.2.1
      (by decide)).1
  · exact ((getEndpointInfo_ready_guard (fun _ => Except.error "net down")
      (AnalyzeProgress.mk "example.com" "" 0) "1.2.3.4" false (by decide)).2.2.1
      (by decide)).2

/-- `GetEndpointInfo` never changes the host or the stored maxAge. -/
theorem getEndpointInfo_host_maxAge (ap : AnalyzeProgress) (t : Transport) (ip : String)
    (fromCache : Bool) :
    (ap.GetEndpointInfo t ip fromCache).2.1.host = ap.host
    ∧ (ap.GetEndpointInfo t ip fromCache).2.1.maxAge = ap.maxAge := by
  unfold AnalyzeProgress.GetEndpointInfo
  by_cases h : ap.prevStatus ≠ STATUS_READY
  · rw [if_pos h]
    have hm := info_host_maxAge ap t false false
    rcases hinfo : ap.Info t false false with ⟨res, ap2, tr⟩
    rw [hinfo] at hm
    simp only at hm
    cases res with
    | error e => simp [hinfo, hm.1, hm.2]
    | ok w =>
      by_cases hr : ap2.prevStatus ≠ STATUS_READY
      · simp [hinfo, hr, hm.1, hm.2]
      · have hft := fetchEndpointDetail_trace ap2 t ip fromCache
        rcases hfd : fetchEndpointDetail ap2 t ip fromCache with ⟨r2, ap3, tr2⟩
        rw [hfd] at hft
        simp only at hft
        simp [hinfo, hr, hfd, hft.2, hm.1, hm.2]
  · rw [if_neg h]
    have hft := fetchEndpointDetail_trace ap t ip fromCache
    rcases hfd : fetchEndpointDetail ap t ip fromCache with ⟨r2, ap3, tr2⟩
    rw [hfd] at hft
    simp only at hft
    simp [hfd, hft.2]

/-- C9: `AnalyzeProgress.Info` is atomic on the handle: on error the handle
is unchanged and `prevStatus` is overwritten with the decoded status only
on success; neither `Info` nor `GetEndpointInfo` ever modifies `host` or
`maxAge`, which are fixed when `Analyze` creates the handle. -/
theorem info_atomic (ap : AnalyzeProgress) (t : Transport) (detailed fromCache : Bool)
    (ip : String) :
    (∀ e, (ap.Info t detailed fromCache).1 = Except.error e →
        (ap.Info t detailed fromCache).2.1 = ap)
    ∧ (∀ v, (ap.Info t detailed fromCache).1 = Except.ok v →
        (ap.Info t detailed fromCache).2.1 = { ap with prevStatus := statusOf v })
    ∧ (ap.Info t detailed fromCache).2.1.host = ap.host
    ∧ (ap.Info t detailed fromCache).2.1.maxAge = ap.maxAge
    ∧ (ap.GetEndpointInfo t ip fromCache).2.1.host = ap.host
    ∧ (ap.GetEndpointInfo t ip fromCache).2.1.maxAge = ap.maxAge
    ∧ (∀ v, (Analyze t ap.host (AnalyzeParams.mk false false false ap.maxAge false)).1 =
          Except.ok v → v = AnalyzeProgress.mk ap.host "" ap.maxAge) := by
  refine ⟨fun e he => info_error_state ap t detailed fromCache e he,
    fun v hv => info_ok_state ap t detailed fromCache v hv,
    (info_host_maxAge ap t detailed fromCache).1,
    (info_host_maxAge ap t detailed fromCache).2,
    (getEndpointInfo_host_maxAge ap t ip fromCache).1,
    (getEndpointInfo_host_maxAge ap t ip fromCache).2, ?_⟩
  intro v hv
  unfold Analyze at hv
  rcases hdr : doRequestNil t (API_URL_ANALYZE ++ "?" ++
      analyzeQuery ap.host (AnalyzeParams.mk false false false ap.maxAge false)) with ⟨res, tr⟩
  rw [hdr] at hv
  cases res with
  | error e => simp at hv
  | ok u =>
    simp at hv
    exact hv.symm

/-- Witness for `info_atomic`: a failing transport leaves a concrete
handle unchanged. -/
theorem info_atomic_witness :
    ((AnalyzeProgress.mk "h" "DNS" 3).Info (fun _ => Except.error "down") false false).1 =
      Except.error "down"
    ∧ ((AnalyzeProgress.mk "h" "DNS" 3).Info (fun _ => Except.error "down") false false).2.1 =
      AnalyzeProgress.mk "h" "DNS" 3 := by
  refine ⟨by rfl, ?_⟩
  exact (info_atomic (AnalyzeProgress.mk "h" "DNS" 3) (fun _ => Except.error "down")
    false false "ip").1 "down" (by rfl)

/-- `Analyze` performs exactly one request, to the analyze endpoint with
its query. -/
theorem analyze_trace (t : Transport) (host : String) (params : AnalyzeParams) :
    (Analyze t host params).2 = [API_URL_ANALYZE ++ "?" ++ analyzeQuery host params] := by
  unfold Analyze
  rcases hdr : doRequestNil t (API_URL_ANALYZE ++ "?" ++ analyzeQuery host params)
    with ⟨res, tr⟩
  have htr : tr = [API_URL_ANALYZE ++ "?" ++ analyzeQuery host params] := by
    have := doRequestNil_trace t (API_URL_ANALYZE ++ "?" ++ analyzeQuery host params)
    rw [hdr] at this
    exact this
  cases res <;> simp [hdr, htr]

/-- The requests issued by `GetEndpointInfo` are exactly one of: the detail
request alone (status already READY), the refresh alone (refresh failed or
status still not READY), or the refresh followed by the detail request. -/
theorem getEndpointInfo_trace_cases (ap : AnalyzeProgress) (t : Transport) (ip : String)
    (fromCache : Bool) :
    ((ap.GetEndpointInfo t ip fromCache).2.2 =
        [API_URL_DETAILED ++ "?" ++ endpointQuery ap ip fromCache]
      ∨ (ap.GetEndpointInfo t ip fromCache).2.2 =
        [API_URL_ANALYZE ++ "?" ++ infoQuery ap false false]
      ∨ (ap.GetEndpointInfo t ip fromCache).2.2 =
        [API_URL_ANALYZE ++ "?" ++ infoQuery ap false false,
         API_URL_DETAILED ++ "?" ++ endpointQuery (ap.Info t false false).2.1 ip fromCache])
    ∧ (ap.prevStatus = STATUS_READY →
        (ap.GetEndpointInfo t ip fromCache).2.2 =
          [API_URL_DETAILED ++ "?" ++ endpointQuery ap ip fromCache]) := by
  unfold AnalyzeProgress.GetEndpointInfo
  by_cases h : ap.prevStatus ≠ STATUS_READY
  · rw [if_pos h]
    constructor
    · have hgi := info_trace ap t false false
      rcases hinfo : ap.Info t false false with ⟨res, ap2, tr⟩
      rw [hinfo] at hgi
      simp only at hgi
      subst hgi
      cases res with
      | error e => simp [hinfo]
      | ok w =>
        by_cases hr : ap2.prevStatus ≠ STATUS_READY
        · simp [hinfo, hr]
        · have hft := fetchEndpointDetail_trace ap2 t ip fromCache
          rcases hfd : fetchEndpointDetail ap2 t ip fromCache with ⟨r2, ap3, tr2⟩
          rw [hfd] at hft
          simp only at hft
          simp [hinfo, hr, hfd, hft.1]
    · intro hready
      exact absurd hready h
  · rw [if_neg h]
    have hft := fetchEndpointDetail_trace ap t ip fromCache
    rcases hfd : fetchEndpointDetail ap t ip fromCache with ⟨r2, ap3, tr2⟩
    rw [hfd] at hft
    simp only at hft
    simp [hfd, hft.1]

/-- Counterexample to C6 as stated: with a stale handle and a transport
whose analyze response reports status READY, a single `GetEndpointInfo`
call issues two HTTP requests (the status refresh and the detail fetch),
not one. -/
theorem single_request_counterexample :
    ((AnalyzeProgress.mk "h" "" 0).GetEndpointInfo
        (fun _ => Except.ok (200, Json.obj [("status", Json.str "READY")]))
        "1.2.3.4" false).2.2.length = 2 := by
  decide

/-- C6 (amended): each public operation issues its requests sequentially:
`NewAPI` with a non-empty app name, `Analyze` and `Info` each issue exactly
one HTTP request per call (`NewAPI` with an empty app name issues none),
while `GetEndpointInfo` issues one request when the stored status is READY
and at most two (refresh then detail) otherwise. -/
theorem request_counts (t : Transport) (app version host ip : String)
    (params : AnalyzeParams) (ap : AnalyzeProgress) (detailed fromCache : Bool) :
    (app ≠ "" → (NewAPI t app version).2.length = 1)
    ∧ (app = "" → (NewAPI t app version).2.length = 0)
    ∧ (Analyze t host params).2.length = 1
    ∧ (ap.Info t detailed fromCache).2.2.length = 1
    ∧ 1 ≤ (ap.GetEndpointInfo t ip fromCache).2.2.length
    ∧ (ap.GetEndpointInfo t ip fromCache).2.2.length ≤ 2
    ∧ (ap.prevStatus = STATUS_READY →
        (ap.GetEndpointInfo t ip fromCache).2.2.length = 1) := by
  have hge := getEndpointInfo_trace_cases ap t ip fromCache
  refine ⟨?_, ?_, ?_, ?_, ?_, ?_, ?_⟩
  · intro h
    rw [((newAPI_cases t app version).2 h).1]
    rfl
  · intro h
    rw [(newAPI_cases t app version).1 h]
    rfl
  · rw [analyze_trace t host params]
    rfl
  · rw [info_trace ap t detailed fromCache]
    rfl
  · rcases hge.1 with h | h | h <;> simp [h]
  · rcases hge.1 with h | h | h <;> simp [h]
  · intro hready
    rw [hge.2 hready]
    rfl

/-- Witness for `request_counts` at concrete inputs. -/
theorem request_counts_witness :
    (NewAPI (fun _ => Except.error "down") "app" "1.0").2.length = 1
    ∧ (NewAPI (fun _ => Except.error "down") "" "1.0").2.length = 0
    ∧ ((AnalyzeProgress.mk "h" "READY" 0).GetEndpointInfo
        (fun _ => Except.error "down") "ip" false).2.2.length = 1 := by
  refine ⟨?_, ?_, ?_⟩
  · exact (request_counts (fun _ => Except.error "down") "app" "1.0" "h" "ip"
      (AnalyzeParams.mk false false false 0 false) (AnalyzeProgress.mk "h" "READY" 0)
      false false).1 (by decide)
  · exact (request_counts (fun _ => Except.error "down") "" "1.0" "h" "ip"
      (AnalyzeParams.mk false false false 0 false) (AnalyzeProgress.mk "h" "READY" 0)
      false false).2.1 rfl
  · exact (request_counts (fun _ => Except.error "down") "app" "1.0" "h" "ip"
      (AnalyzeParams.mk false false false 0 false) (AnalyzeProgress.mk "h" "READY" 0)
      false false).2.2.2.2.2.2 (by decide)

/-- A request URI of one of the three fixed API endpoints. -/
def isApiRequest (u : String) : Prop :=
  u = API_URL_INFO
  ∨ (∃ q, u = API_URL_ANALYZE ++ "?" ++ q)
  ∨ (∃ q, u = API_URL_DETAILED ++ "?" ++ q)

/-- C7: every HTTP request issued by any public operation of the client
targets one of exactly three GET endpoints: the info, analyze and
endpoint-detail URLs. -/
theorem requests_hit_three_endpoints (t : Transport) (app version host ip : String)
    (params : AnalyzeParams) (ap : AnalyzeProgress) (detailed fromCache : Bool) :
    (∀ u ∈ (NewAPI t app version).2, isApiRequest u)
    ∧ (∀ u ∈ (Analyze t host params).2, isApiRequest u)
    ∧ (∀ u ∈ (ap.Info t detailed fromCache).2.2, isApiRequest u)
    ∧ (∀ u ∈ (ap.GetEndpointInfo t ip fromCache).2.2, isApiRequest u) := by
  refine ⟨?_, ?_, ?_, ?_⟩
  · intro u hu
    by_cases h : app = ""
    · rw [(newAPI_cases t app version).1 h] at hu
      simp at hu
    · rw [((newAPI_cases t app version).2 h).1] at hu
      simp at hu
      subst hu
      exact Or.inl rfl
  · intro u hu
    rw [analyze_trace t host params] at hu
    simp at hu
    subst hu
    exact Or.inr (Or.inl ⟨analyzeQuery host params, rfl⟩)
  · intro u hu
    rw [info_trace ap t detailed fromCache] at hu
    simp at hu
    subst hu
    exact Or.inr (Or.inl ⟨infoQuery ap detailed fromCache, rfl⟩)
  · intro u hu
    rcases (getEndpointInfo_trace_cases ap t ip fromCache).1 with h | h | h <;>
      rw [h] at hu <;> simp at hu
    · subst hu
      exact Or.inr (Or.inr ⟨endpointQuery ap ip fromCache, rfl⟩)
    · subst hu
      exact Or.inr (Or.inl ⟨infoQuery ap false false, rfl⟩)
    · rcases hu with hu | hu
      · subst hu
        exact Or.inr (Or.inl ⟨infoQuery ap false false, rfl⟩)
      · subst hu
        exact Or.inr (Or.inr ⟨endpointQuery (ap.Info t false false).2.1 ip fromCache, rfl⟩)

/-- A maxAge fragment never coincides with the publish fragment. -/
theorem maxAge_ne_publish (x : String) : "maxAge=" ++ x ≠ "publish=on" := by
  intro h
  have h2 := congrArg String.data h
  rw [String.data_append] at h2
  have e1 : ("maxAge=" : String).data = ['m', 'a', 'x', 'A', 'g', 'e', '='] := rfl
  have e2 : ("publish=on" : String).data = ['p', 'u', 'b', 'l', 'i', 's', 'h', '=', 'o', 'n'] := rfl
  rw [e1, e2] at h2
  simp at h2

/-- A maxAge fragment never coincides with the startNew fragment. -/
theorem maxAge_ne_startNew (x : String) : "maxAge=" ++ x ≠ "startNew=on" := by
  intro h
  have h2 := congrArg String.data h
  rw [String.data_append] at h2
  have e1 : ("maxAge=" : String).data = ['m', 'a', 'x', 'A', 'g', 'e', '='] := rfl
  have e2 : ("startNew=on" : String).data =
    ['s', 't', 'a', 'r', 't', 'N', 'e', 'w', '=', 'o', 'n'] := rfl
  rw [e1, e2] at h2
  simp at h2

/-- A maxAge fragment never coincides with the fromCache fragment. -/
theorem maxAge_ne_fromCache (x : String) : "maxAge=" ++ x ≠ "fromCache=on" := by
  intro h
  have h2 := congrArg String.data h
  rw [String.data_append] at h2
  have e1 : ("maxAge=" : String).data = ['m', 'a', 'x', 'A', 'g', 'e', '='] := rfl
  have e2 : ("fromCache=on" : String).data =
    ['f', 'r', 'o', 'm', 'C', 'a', 'c', 'h', 'e', '=', 'o', 'n'] := rfl
  rw [e1, e2] at h2
  simp at h2

/-- A maxAge fragment never coincides with the ignoreMismatch fragment. -/
theorem maxAge_ne_ignoreMismatch (x : String) : "maxAge=" ++ x ≠ "ignoreMismatch=on" := by
  intro h
  have h2 := congrArg String.data h
  rw [String.data_append] at h2
  have e1 : ("maxAge=" : String).data = ['m', 'a', 'x', 'A', 'g', 'e', '='] := rfl
  have e2 : ("ignoreMismatch=on" : String).data =
    ['i', 'g', 'n', 'o', 'r', 'e', 'M', 'i', 's', 'm', 'a', 't', 'c', 'h', '=', 'o', 'n'] := rfl
  rw [e1, e2] at h2
  simp at h2

/-- A maxAge fragment never coincides with the all fragment. -/
theorem maxAge_ne_all (x : String) : "maxAge=" ++ x ≠ "all=on" := by
  intro h
  have h2 := congrArg String.data h
  rw [String.data_append] at h2
  have e1 : ("maxAge=" : String).data = ['m', 'a', 'x', 'A', 'g', 'e', '='] := rfl
  have e2 : ("all=on" : String).data = ['a', 'l', 'l', '=', 'o', 'n'] := rfl
  rw [e1, e2] at h2
  simp at h2

/-- A maxAge fragment never coincides with a host fragment. -/
theorem maxAge_ne_host (x h : String) : "maxAge=" ++ x ≠ "host=" ++ h := by
  intro he
  have h2 := congrArg String.data he
  rw [String.data_append, String.data_append] at h2
  have e1 : ("maxAge=" : String).data = ['m', 'a', 'x', 'A', 'g', 'e', '='] := rfl
  have e2 : ("host=" : String).data = ['h', 'o', 's', 't', '='] := rfl
  rw [e1, e2] at h2
  simp at h2

/-- A maxAge fragment never coincides with an s fragment. -/
theorem maxAge_ne_s (x ip : String) : "maxAge=" ++ x ≠ "s=" ++ ip := by
  intro he
  have h2 := congrArg String.data he
  rw [String.data_append, String.data_append] at h2
  have e1 : ("maxAge=" : String).data = ['m', 'a', 'x', 'A', 'g', 'e', '='] := rfl
  have e2 : ("s=" : String).data = ['s', '='] := rfl
  rw [e1, e2] at h2
  simp at h2

/-- C10: the maxAge parameter is emitted asymmetrically.  `Analyze` (via
`paramsToQuery`) emits a maxAge fragment exactly when `params.MaxAge` is
nonzero, including negative values, whereas `Info` and `GetEndpointInfo`
emit one exactly when `fromCache` is requested and the stored `maxAge` is
strictly positive. -/
theorem maxAge_asymmetry (p : AnalyzeParams) (ap : AnalyzeProgress)
    (detailed fromCache : Bool) (ip : String) :
    (("maxAge=" ++ toString p.MaxAge) ∈ queryFragments p ↔ p.MaxAge ≠ 0)
    ∧ (("maxAge=" ++ toString ap.maxAge) ∈ infoQueryFrags ap detailed fromCache ↔
        fromCache = true ∧ ap.maxAge > 0)
    ∧ (("maxAge=" ++ toString ap.maxAge) ∈ endpointQueryFrags ap ip fromCache ↔
        fromCache = true ∧ ap.maxAge > 0) := by
  refine ⟨?_, ?_, ?_⟩
  · rcases p with ⟨pb, sn, fc2, ma, im⟩
    by_cases hma : ma = 0 <;>
      cases pb <;> cases sn <;> cases fc2 <;> cases im <;>
        simp [queryFragments, hma, maxAge_ne_publish, maxAge_ne_startNew,
          maxAge_ne_fromCache, maxAge_ne_ignoreMismatch]
  · cases detailed <;> cases fromCache <;> by_cases hma : ap.maxAge > 0 <;>
      simp [infoQueryFrags, hma, maxAge_ne_host, maxAge_ne_all, maxAge_ne_fromCache,
        le_of_not_lt]
  · cases fromCache <;> by_cases hma : ap.maxAge > 0 <;>
      simp [endpointQueryFrags, hma, maxAge_ne_host, maxAge_ne_s, maxAge_ne_fromCache,
        le_of_not_lt]

/-- Witness for `maxAge_asymmetry`: a negative `MaxAge` still emits a
maxAge fragment in `Analyze`, while a non-cached `Info` with positive
stored maxAge emits none. -/
theorem maxAge_asymmetry_witness :
    ("maxAge=" ++ toString (AnalyzeParams.mk false false false (-7) false).MaxAge) ∈
      queryFragments (AnalyzeParams.mk false false false (-7) false)
    ∧ ¬ ("maxAge=" ++ toString (AnalyzeProgress.mk "h" "" 5).maxAge) ∈
        infoQueryFrags (AnalyzeProgress.mk "h" "" 5) false false := by
  constructor
  · exact (maxAge_asymmetry (AnalyzeParams.mk false false false (-7) false)
      (AnalyzeProgress.mk "h" "" 5) false false "ip").1.mpr (by decide)
  · intro hmem
    have h := (maxAge_asymmetry (AnalyzeParams.mk false false false (-7) false)
      (AnalyzeProgress.mk "h" "" 5) false false "ip").2.1.mp hmem
    simp at h

/-- Key of a `key=value` fragment: the characters before the first `=`. -/
def fragKey (f : String) : String :=
  String.mk (f.data.takeWhile (fun c => c != '='))

/-- Split a character list at `&` separators. -/
def splitAmpAux : List Char → List Char → List (List Char)
  | [], acc => [acc.reverse]
  | c :: rest, acc =>
    if c = '&' then acc.reverse :: splitAmpAux rest []
    else splitAmpAux rest (c :: acc)

/-- The parameter names of a query string: the part before `=` of every
`&`-separated fragment. -/
def queryKeysOf (q : String) : List String :=
  (splitAmpAux q.data []).map (fun cs => String.mk (cs.takeWhile (fun c => c != '=')))

/-- The parameter names the client can emit across its three queries. -/
def allowedParamKeys : List String :=
  ["host", "publish", "startNew", "fromCache", "maxAge", "ignoreMismatch", "all", "s"]

/-- Counterexample to C4 as stated: with `Public` set, the analyze query
carries a parameter named `publish`, not `public`. -/
theorem public_param_counterexample :
    queryKeysOf (analyzeQuery "example.com" (AnalyzeParams.mk true false false 0 false)) =
      ["host", "publish"]
    ∧ "public" ∉
      queryKeysOf (analyzeQuery "example.com" (AnalyzeParams.mk true false false 0 false)) := by
  constructor
  · rfl
  · decide

/-- A `takeWhile` scan passes over a block whose characters all satisfy the
predicate. -/
theorem takeWhile_append_all (p : Char → Bool) :
    ∀ l1 l2 : List Char, (∀ c ∈ l1, p c = true) →
      (l1 ++ l2).takeWhile p = l1 ++ l2.takeWhile p := by
  intro l1
  induction l1 with
  | nil => intro l2 _; simp
  | cons c rest ih =>
    intro l2 h
    simp [List.cons_append, List.takeWhile_cons, h c (by simp), ih l2
      (fun d hd => h d (by simp [hd]))]

/-- The key of a `k=v` fragment is `k` when `k` contains no `=`. -/
theorem fragKey_keyval (k v : String) (h : ∀ c ∈ k.data, c ≠ '=') :
    fragKey (k ++ "=" ++ v) = k := by
  unfold fragKey
  have hd : (k ++ "=" ++ v).data = k.data ++ ('=' :: v.data) := by
    rw [String.data_append, String.data_append]
    have he : ("=" : String).data = ['='] := rfl
    rw [he, List.append_assoc]
    rfl
  rw [hd, takeWhile_append_all _ _ _ (fun c hc => by simp [h c hc])]
  simp [List.takeWhile_cons]

/-- The key of a host fragment is `host`. -/
theorem fragKey_host (h : String) : fragKey ("host=" ++ h) = "host" := by
  have e : ("host=" : String) = "host" ++ "=" := rfl
  rw [e]
  exact fragKey_keyval "host" h (by decide)

/-- The key of an s fragment is `s`. -/
theorem fragKey_s (ip : String) : fragKey ("s=" ++ ip) = "s" := by
  have e : ("s=" : String) = "s" ++ "=" := rfl
  rw [e]
  exact fragKey_keyval "s" ip (by decide)

/-- The key of a maxAge fragment is `maxAge`. -/
theorem fragKey_maxAge (x : String) : fragKey ("maxAge=" ++ x) = "maxAge" := by
  have e : ("maxAge=" : String) = "maxAge" ++ "=" := rfl
  rw [e]
  exact fragKey_keyval "maxAge" x (by decide)

/-- Every fragment of `paramsToQuery` has an allowed key. -/
theorem queryFragments_keys (params : AnalyzeParams) :
    ∀ f ∈ queryFragments params, fragKey f ∈ allowedParamKeys := by
  intro f hf
  rcases params with ⟨pb, sn, fc, ma, im⟩
  by_cases hma : ma = 0 <;>
    cases pb <;> cases sn <;> cases fc <;> cases im <;>
      simp [queryFragments, hma] at hf <;>
      rcases hf with rfl | rfl | rfl | rfl | rfl <;>
      first
        | decide
        | (rw [fragKey_maxAge]; decide)

/-- C4 (amended): the parameter names the client emits are exactly `host`,
`publish`, `startNew`, `fromCache`, `maxAge`, `ignoreMismatch`, `all` and
`s` (with one spurious empty fragment in the analyze query when no
parameter is set), and for every `AnalyzeParams` with `Public` set the
analyze query contains the parameter named `publish` — not `public`. -/
theorem query_keys_amended (host ip : String) (params : AnalyzeParams)
    (ap : AnalyzeProgress) (detailed fromCache : Bool) :
    (∀ f ∈ analyzeQueryFrags host params, f = "" ∨ fragKey f ∈ allowedParamKeys)
    ∧ (∀ f ∈ infoQueryFrags ap detailed fromCache, fragKey f ∈ allowedParamKeys)
    ∧ (∀ f ∈ endpointQueryFrags ap ip fromCache, fragKey f ∈ allowedParamKeys)
    ∧ (params.Public = true →
        "publish=on" ∈ queryFragments params ∧ fragKey "publish=on" = "publish") := by
  refine ⟨?_, ?_, ?_, ?_⟩
  · intro f hf
    unfold analyzeQueryFrags at hf
    rcases List.mem_cons.mp hf with rfl | hf2
    · right
      rw [fragKey_host]
      decide
    · rcases hq : queryFragments params with _ | ⟨g, gs⟩
      · rw [hq] at hf2
        simp at hf2
        left
        exact hf2
      · rw [hq] at hf2
        right
        exact queryFragments_keys params f (by rw [hq]; exact hf2)
  · intro f hf
    cases detailed <;> cases fromCache <;> by_cases hma : ap.maxAge > 0 <;>
      simp [infoQueryFrags, hma] at hf <;>
      first
        | (rw [hf, fragKey_host]; decide)
        | (rcases hf with rfl | rfl <;>
            first
              | (rw [fragKey_host]; decide)
              | decide
              | (rw [fragKey_maxAge]; decide))
        | (rcases hf with rfl | rfl | rfl <;>
            first
              | (rw [fragKey_host]; decide)
              | decide
              | (rw [fragKey_maxAge]; decide))
        | (rcases hf with rfl | rfl | rfl | rfl <;>
            first
              | (rw [fragKey_host]; decide)
              | decide
              | (rw [fragKey_maxAge]; decide))
  · intro f hf
    cases fromCache <;> by_cases hma : ap.maxAge > 0 <;>
      simp [endpointQueryFrags, hma] at hf <;>
      first
        | (rcases hf with rfl | rfl <;>
            first
              | (rw [fragKey_host]; decide)
              | (rw [fragKey_s]; decide)
              | decide)
        | (rcases hf with rfl | rfl | rfl <;>
            first
              | (rw [fragKey_host]; decide)
              | (rw [fragKey_s]; decide)
              | decide
              | (rw [fragKey_maxAge]; decide))
        | (rcases hf with rfl | rfl | rfl | rfl <;>
            first
              | (rw [fragKey_host]; decide)
              | (rw [fragKey_s]; decide)
              | decide
              | (rw [fragKey_maxAge]; decide))
  · intro hp
    rcases params with ⟨pb, sn, fc, ma, im⟩
    simp only at hp
    subst hp
    refine ⟨?_, by decide⟩
    simp [queryFragments]

/-- Witness for `query_keys_amended`: concrete host and parameters. -/
theorem query_keys_amended_witness :
    "publish=on" ∈ queryFragments (AnalyzeParams.mk true false false 0 false)
    ∧ fragKey "publish=on" = "publish" := by
  exact (query_keys_amended "example.com" "1.2.3.4"
    (AnalyzeParams.mk true false false 0 false) (AnalyzeProgress.mk "h" "" 0)
    false false).2.2.2 rfl

/-- C5: for every JSON payload in the documented response shape of any of
the three decoded responses (`Info`, `AnalyzeInfo`, `EndpointInfo`, the
latter two covering the whole nested schema), decoding succeeds and the
decoded-and-re-encoded value is exactly the payload's documented part: the
documented fields are preserved without loss and any unknown field present
in the payload is ignored rather than causing a decode error. -/
theorem decode_documented_payloads (p q r : Json)
    (hp : shapedObj infoSpec p = true)
    (hq : shapedObj analyzeInfoSpec q = true)
    (hr : shapedObj endpointInfoSpec r = true) :
    decodeObj infoSpec p = some (stripObj infoSpec p)
    ∧ decodeObj analyzeInfoSpec q = some (stripObj analyzeInfoSpec q)
    ∧ decodeObj endpointInfoSpec r = some (stripObj endpointInfoSpec r) :=
  ⟨(infoModel_ok p hp).1, (analyzeInfoModel_ok q hq).1, (endpointInfoModel_ok r hr).1⟩

/-- A documented-shape `Info` payload with one unknown field. -/
def infoPayload : Json :=
  Json.obj [("engineVersion", Json.str "1.11.14"), ("criteriaVersion", Json.str "2009f"),
    ("maxAssessments", Json.int 25), ("currentAssessments", Json.int 0),
    ("newAssessmentCoolOff", Json.int 1000), ("messages", Json.arr [Json.str "hi"]),
    ("x-unknown", Json.bool true)]

/-- A documented-shape `AnalyzeInfo` payload with one unknown field. -/
def analyzePayload : Json :=
  Json.obj [("host", Json.str "example.com"), ("port", Json.int 443),
    ("protocol", Json.str "http"), ("isPublic", Json.bool false),
    ("status", Json.str "READY"), ("statusMessage", Json.str "Ready"),
    ("startTime", Json.int 1), ("testTime", Json.int 2),
    ("engineVersion", Json.str "2.4.0"), ("criteriaVersion", Json.str "2009q"),
    ("cacheExpiryTime", Json.int 3), ("certHostnames", Json.null),
    ("endpoints", Json.arr [Json.null]), ("certs", Json.null),
    ("x-extra", Json.int 7)]

/-- A documented-shape `EndpointInfo` payload with one unknown field. -/
def endpointPayload : Json :=
  Json.obj [("ipAddress", Json.str "64.41.200.100"), ("serverName", Json.str "srv"),
    ("statusMessage", Json.str "Ready"), ("statusDetails", Json.str ""),
    ("statusDetailsMessage", Json.str ""), ("grade", Json.str "A"),
    ("gradeTrustIgnored", Json.str "A"), ("futureGrade", Json.str ""),
    ("hasWarnings", Json.bool false), ("isExceptional", Json.bool true),
    ("progress", Json.int 100), ("duration", Json.int 20), ("eta", Json.int 0),
    ("delegation", Json.int 1), ("details", Json.null),
    ("x-extra", Json.str "ignored")]

/-- Witness for `decode_documented_payloads` at concrete payloads, each
carrying an unknown field. -/
theorem decode_documented_payloads_witness :
    shapedObj infoSpec infoPayload = true
    ∧ shapedObj analyzeInfoSpec analyzePayload = true
    ∧ shapedObj endpointInfoSpec endpointPayload = true
    ∧ decodeObj infoSpec infoPayload = some (stripObj infoSpec infoPayload)
    ∧ decodeObj analyzeInfoSpec analyzePayload =
        some (stripObj analyzeInfoSpec analyzePayload)
    ∧ decodeObj endpointInfoSpec endpointPayload =
        some (stripObj endpointInfoSpec endpointPayload) := by
  have h := decode_documented_payloads infoPayload analyzePayload endpointPayload
    (by decide) (by decide) (by decide)
  exact ⟨by decide, by decide, by decide, h.1, h.2.1, h.2.2⟩

/-- Witness for `requests_hit_three_endpoints`: the info request of a
concrete `Info` call hits the analyze endpoint. -/
theorem requests_hit_three_endpoints_witness :
    isApiRequest (API_URL_ANALYZE ++ "?" ++
      infoQuery (AnalyzeProgress.mk "h" "" 0) false false) := by
  exact (requests_hit_three_endpoints (fun _ => Except.error "down") "app" "1.0" "h" "1.2.3.4"
    (AnalyzeParams.mk false false false 0 false) (AnalyzeProgress.mk "h" "" 0)
    false false).2.2.1
    (API_URL_ANALYZE ++ "?" ++ infoQuery (AnalyzeProgress.mk "h" "" 0) false false)
    (by rw [info_trace]; exact List.mem_singleton.mpr rfl)
